import Mathlib

/-!
Verification model of `src/url_scraper_md_formatter.py` (documentation-markdown-formatter).

The Python source is shallowly embedded: pure dictionary/string manipulation becomes
Lean functions over an inductive `Json` model of Python values; calls into external
libraries (BeautifulSoup, aiohttp/requests fetches, `json.loads`, AWS Bedrock) are
modelled as explicit oracle parameters or "view" structures holding the data those
libraries would return; the per-URL pipeline and the rate limiter become explicit
state-passing functions over those oracles.  Wall-clock timestamps (`time.time()`,
`datetime.now()`) are either integer model times (rate limiter) or omitted from the
statistics record (no claim observes them).
-/

namespace UrlScraperModel

/-! ## Model of Python values (the shapes `json.loads` can produce) -/

/-- A Python value as produced by `json.loads`: `None`, booleans, numbers,
strings, lists and dicts (dicts as their ordered item lists). -/
inductive Json where
  | null : Json
  | bool (b : Bool) : Json
  | num (q : ℚ) : Json
  | str (s : String) : Json
  | arr (elems : List Json) : Json
  | obj (items : List (String × Json)) : Json
deriving Inhabited

/-- Python truthiness of a value (`bool(x)`). -/
def jsonTruthy : Json → Bool
  | .null => false
  | .bool b => b
  | .num q => q ≠ 0
  | .str s => s ≠ ""
  | .arr elems => !elems.isEmpty
  | .obj items => !items.isEmpty

/-- Dict key lookup, `d.get(k)`-style: `none` when the key is absent. -/
def Json.lookup (k : String) : Json → Option Json
  | .obj items => items.lookup k
  | _ => none

/-- `d.get(k, default)`. -/
def Json.getD (j : Json) (k : String) (d : Json) : Json :=
  (j.lookup k).getD d

/-- The item list of a dict; `none` when the value is not a dict (a Python
`.items()` / `.get` call on it would raise). -/
def Json.asObj : Json → Option (List (String × Json))
  | .obj items => some items
  | _ => none

/-- The element list of a Python list; `none` for other values. -/
def Json.asArr : Json → Option (List Json)
  | .arr elems => some elems
  | _ => none

/-- The underlying string of a Python str; `none` for other values. -/
def Json.asStr : Json → Option String
  | .str s => some s
  | _ => none

/-! ## String utilities mirroring the Python string operations used -/

/-- Substring occurrence test over char lists (worker for Python `in`). -/
def listInfix (needle : List Char) : List Char → Bool
  | [] => needle.isEmpty
  | c :: rest => needle.isPrefixOf (c :: rest) || listInfix needle rest

/-- Python `key in x` for the value shapes that can reach the spec validation
check: dict (key membership), list (element equality against the string),
string (substring test).  Other shapes (`int`, `None`, ...) make Python raise
`TypeError`, which the caller catches and treats the same as `False`, so the
model returns `false` for them. -/
def jsonHasKey (key : String) : Json → Bool
  | .obj items => items.any (fun it => it.1 = key)
  | .arr elems => elems.any (fun e => match e with | .str s => s = key | _ => false)
  | .str s => listInfix key.toList s.toList
  | _ => false

/-- `needle in hay` on Python strings (substring containment). -/
def strContains (hay needle : String) : Bool :=
  listInfix needle.toList hay.toList

/-- `s.endswith(suffix)`. -/
def strEndsWith (s suffix : String) : Bool :=
  suffix.toList.isSuffixOf s.toList

/-- `s.startswith(p)` / relative-reference tests (char-list based so concrete
inputs evaluate inside the kernel). -/
def strStartsWith (s p : String) : Bool :=
  p.toList.isPrefixOf s.toList

/-- Python `s.lower()` (ASCII case mapping suffices for the inputs the source
handles). -/
def lowerStr (s : String) : String :=
  ⟨s.toList.map Char.toLower⟩

/-- Python `s.upper()`. -/
def upperStr (s : String) : String :=
  ⟨s.toList.map Char.toUpper⟩

/-- Python `s.strip()`: trim leading and trailing whitespace. -/
def trimStr (s : String) : String :=
  ⟨((s.toList.dropWhile Char.isWhitespace).reverse.dropWhile Char.isWhitespace).reverse⟩

/-- `s.split(sep)` worker for non-empty `sep`: fuel-based structural
recursion (fuel bounded by the input length always suffices). -/
def splitOnCharsAux (sep : List Char) : ℕ → List Char → List Char → List (List Char)
  | 0, acc, l => [acc.reverse ++ l]
  | _ + 1, acc, [] => [acc.reverse]
  | fuel + 1, acc, c :: rest =>
    if sep.isPrefixOf (c :: rest) then
      acc.reverse :: splitOnCharsAux sep fuel [] ((c :: rest).drop sep.length)
    else
      splitOnCharsAux sep fuel (c :: acc) rest

/-- Python-style `s.split(sep)` for non-empty `sep`. -/
def strSplitOn (s sep : String) : List String :=
  (splitOnCharsAux sep.toList s.toList.length [] s.toList).map (fun l => ⟨l⟩)

/-- `sep.join(parts)`. -/
def strIntercalate (sep : String) : List String → String
  | [] => ""
  | [x] => x
  | x :: rest => x ++ sep ++ strIntercalate sep rest

/-- `min(a, b)` on rationals by explicit comparison (kernel-reducible). -/
def ratMin (a b : ℚ) : ℚ :=
  if a ≤ b then a else b

/-- Replace, left to right, every non-overlapping occurrence of the non-empty
needle `n0 :: ntail` by `repl` — char-list worker for Python `s.replace`.
Structural recursion on a fuel bounded by the input length (every step
consumes at least one character, so the wrapper's fuel always suffices). -/
def replaceAllAux (n0 : Char) (ntail repl : List Char) : ℕ → List Char → List Char
  | 0, l => l
  | _ + 1, [] => []
  | fuel + 1, c :: rest =>
    if (n0 :: ntail).isPrefixOf (c :: rest) then
      repl ++ replaceAllAux n0 ntail repl fuel (rest.drop ntail.length)
    else
      c :: replaceAllAux n0 ntail repl fuel rest

/-- Python `s.replace(needle, repl)` for non-empty `needle` (the empty-needle
case never occurs in the source). -/
def pyReplace (s needle repl : String) : String :=
  match needle.toList with
  | [] => s
  | n0 :: ntail => ⟨replaceAllAux n0 ntail repl.toList s.toList.length s.toList⟩

/-- Python `s.rstrip('/')`: drop every trailing `'/'`. -/
def rstripSlash (s : String) : String :=
  ⟨(s.toList.reverse.dropWhile (fun c => c = '/')).reverse⟩

/-- Append preserving insertion order and skipping duplicates — the
`if potential_url not in spec_urls: spec_urls.append(...)` idiom. -/
def dedupAppend (l : List String) (x : String) : List String :=
  if x ∈ l then l else l ++ [x]

/-- Set a key in a Python dict modelled as an ordered item list: overwrite in
place when present (keeping its position), append otherwise — `d[k] = v`. -/
def pyDictSet {β : Type} (items : List (String × β)) (k : String) (v : β) :
    List (String × β) :=
  if items.any (fun it => it.1 = k) then
    items.map (fun it => if it.1 = k then (k, v) else it)
  else
    items ++ [(k, v)]

/-- `d1.update(d2)` on dicts modelled as ordered item lists. -/
def pyDictUpdate {β : Type} (items : List (String × β)) (upd : List (String × β)) :
    List (String × β) :=
  upd.foldl (fun acc it => pyDictSet acc it.1 it.2) items

/-- The key list of a dict modelled as an ordered item list. -/
def dictKeys {β : Type} (items : List (String × β)) : List String :=
  items.map (fun it => it.1)

/-! ## URL handling (model of `urllib.parse.urlparse` / `urljoin` for the
http(s) URLs this pipeline handles) -/

/-- The `scheme`/`netloc`/`path` components of a parsed URL (the only
components the source reads; query and fragment are dropped). -/
structure ParsedUrl where
  scheme : String
  netloc : String
  path : String
deriving Repr, DecidableEq

/-- Simplified `urllib.parse.urlparse`: split on the first `"://"`, then the
authority runs to the first `/`, and the path to the first `?`. -/
def parseUrl (s : String) : ParsedUrl :=
  if strContains s "://" then
    let parts := strSplitOn s "://"
    let scheme := parts.headD ""
    let remainder := strIntercalate "://" parts.tail
    let segs := strSplitOn remainder "/"
    let netloc := segs.headD ""
    let path :=
      if segs.tail.isEmpty then ""
      else "/" ++ strIntercalate "/" segs.tail
    ⟨scheme, netloc, (strSplitOn path "?").headD ""⟩
  else
    ⟨"", "", (strSplitOn s "?").headD ""⟩

/-- The directory part of a URL path: everything up to and including the last
`/` (used by the relative case of `urljoin`). -/
def dirOfPath (path : String) : String :=
  let segs := strSplitOn path "/"
  if segs.length ≤ 1 then "/"
  else strIntercalate "/" segs.dropLast ++ "/"

/-- Simplified `urllib.parse.urljoin` covering absolute references,
scheme-relative (`//...`), root-relative (`/...`) and plain relative
references (dot segments are not normalised — none occur in the inputs the
claims evaluate). -/
def urljoin (base rel : String) : String :=
  if strContains rel "://" then rel
  else
    let b := parseUrl base
    if strStartsWith rel "//" then b.scheme ++ ":" ++ rel
    else if strStartsWith rel "/" then b.scheme ++ "://" ++ b.netloc ++ rel
    else b.scheme ++ "://" ++ b.netloc ++ dirOfPath b.path ++ rel

/-- `url.split('#')[0]` — strip any fragment. -/
def stripFragment (url : String) : String :=
  (strSplitOn url "#").headD ""

/-! ## The quoted-substring scan behind the spec-URL regex patterns

The source runs `re.findall(r'["\x27]([^"\x27]*TOKEN[^"\x27]*)["\x27]', html,
re.IGNORECASE)`.  Such a pattern matches an opening quote (either kind), the
entire run of non-quote characters up to the next quote — which is the
captured group — provided that run contains TOKEN case-insensitively, and the
closing quote.  After a successful match the scan resumes after the closing
quote; after a failed attempt at an opening quote the engine advances, so the
would-be closing quote becomes the next candidate opening quote. -/

/-- Split a char list at its first quote character (`"` or `'`): returns the
prefix before it and the remainder starting at the quote. -/
def splitAtQuote : List Char → Option (List Char × List Char)
  | [] => none
  | c :: rest =>
    if c = '"' ∨ c = '\'' then some ([], c :: rest)
    else (splitAtQuote rest).map (fun p => (c :: p.1, p.2))

theorem splitAtQuote_length (l : List Char) :
    ∀ content rem, splitAtQuote l = some (content, rem) → rem.length ≤ l.length := by
  induction l with
  | nil => intro content rem h; simp [splitAtQuote] at h
  | cons c rest ih =>
    intro content rem h
    simp only [splitAtQuote] at h
    split at h
    · simp only [Option.some.injEq, Prod.mk.injEq] at h
      simp [← h.2]
    · cases hs : splitAtQuote rest with
      | none => simp [hs] at h
      | some p =>
        simp only [hs, Option.map_some', Option.some.injEq, Prod.mk.injEq] at h
        have := ih p.1 p.2 (by simp [hs])
        simp only [← h.2, List.length_cons]
        omega

/-- All captured groups, in order, of the quoted-`token` regex scan over a
char list (`token` is given lowercase; containment is case-insensitive).
Structural recursion on a fuel bounded by the input length: every step
strictly shortens the list (by `splitAtQuote_length`), so the wrapper's fuel
always suffices. -/
def scanQuotedAux (token : List Char) : ℕ → List Char → List String
  | 0, _ => []
  | _ + 1, [] => []
  | fuel + 1, c :: rest =>
    if c = '"' ∨ c = '\'' then
      match splitAtQuote rest with
      | none => []
      | some (content, remainder) =>
        if listInfix token (content.map Char.toLower) then
          String.mk content :: scanQuotedAux token fuel (remainder.drop 1)
        else
          scanQuotedAux token fuel remainder
    else
      scanQuotedAux token fuel rest

/-- The quoted-`token` regex scan over a char list. -/
def scanQuoted (token : List Char) (l : List Char) : List String :=
  scanQuotedAux token l.length l

/-! ## The HTTP-method token count

`len(re.findall(r'\b(GET|POST|PUT|DELETE|PATCH)\b', html))`: the alternatives
are all-letter words, so a word-boundary-delimited match is exactly a maximal
word-character run equal to one of the five tokens, and distinct matches live
in distinct runs.  The count is therefore the number of maximal `\w`-runs
equal to one of the tokens. -/

/-- ASCII word character (`\w`). -/
def isWordChar (c : Char) : Bool :=
  c.isAlphanum || c = '_'

theorem dropWhile_length_le {α : Type} (p : α → Bool) (l : List α) :
    (l.dropWhile p).length ≤ l.length := by
  induction l with
  | nil => simp
  | cons c rest ih =>
    simp only [List.dropWhile_cons]
    split
    · exact Nat.le_trans ih (by simp)
    · simp

/-- The maximal word-character runs of a char list, in order (fuel-based
structural recursion; the wrapper's fuel always suffices). -/
def wordRunsAux : ℕ → List Char → List (List Char)
  | 0, _ => []
  | _ + 1, [] => []
  | fuel + 1, c :: rest =>
    if isWordChar c then
      (c :: rest).takeWhile isWordChar :: wordRunsAux fuel ((c :: rest).dropWhile isWordChar)
    else
      wordRunsAux fuel rest

/-- The maximal word-character runs of a char list, in order. -/
def wordRuns (l : List Char) : List (List Char) :=
  wordRunsAux l.length l

/-- `len(re.findall(r'\b(GET|POST|PUT|DELETE|PATCH)\b', s))`. -/
def countHttpMethodTokens (s : String) : ℕ :=
  ((wordRuns s.toList).filter
    (fun r => ["GET", "POST", "PUT", "DELETE", "PATCH"].any
      (fun t => r = t.toList))).length

/-! ## Detector (`SwaggerEnhancedScraper.detect_swagger_page`)

The checks that query the parsed DOM (`BeautifulSoup` lookups) are modelled by
a `SoupView` holding the boolean outcome of each such external lookup; the
checks on the raw/lowered text and on the URL are computed directly. -/

/-- Outcomes of the BeautifulSoup lookups `detect_swagger_page` performs on
the parsed HTML. -/
structure SoupView where
  /-- `soup.find('div', id='swagger-ui')` found something. -/
  hasSwaggerUiIdDiv : Bool
  /-- `soup.find(class_='swagger-ui')` found something. -/
  hasSwaggerUiClass : Bool
  /-- an `<a href=...swagger.json...>` exists. -/
  hasSwaggerJsonLink : Bool
  /-- an `<a href=...openapi.json...>` exists. -/
  hasOpenapiJsonLink : Bool
  /-- `soup.title` text, when a title element exists. -/
  title : Option String
  /-- an element with an `opblock`-matching class exists. -/
  hasOpblockClass : Bool
  /-- a string matching `try.*it.*out` (case-insensitive) exists. -/
  hasTryItOut : Bool
deriving Repr, DecidableEq

/-- The ordered check table of `detect_swagger_page`: name, triggered?, and
confidence weight, exactly as listed in the source.  Weights are carried in
hundredths (`90` = the source's `0.9`): all the source's float weights are
exact multiples of 0.05 whose sums stay exactly representable, so the rational
`(weight sum)/100` the model derives equals the float sum the source
computes. -/
def detectionChecks (cleanUrl contentLower html : String) (sv : SoupView) :
    List (String × Bool × ℕ) :=
  [ ("swagger-ui div/id", sv.hasSwaggerUiIdDiv, 90),
    ("swagger-ui class", sv.hasSwaggerUiClass, 90),
    ("swagger.json link", sv.hasSwaggerJsonLink, 95),
    ("openapi.json link", sv.hasOpenapiJsonLink, 95),
    ("swagger in title",
      (match sv.title with
       | some t => strContains (lowerStr t) "swagger"
       | none => false), 70),
    ("opblock class", sv.hasOpblockClass, 80),
    ("swagger-ui bundle", strContains contentLower "swagger-ui-bundle", 80),
    ("try it out button", sv.hasTryItOut, 60),
    ("swagger text", strContains contentLower "swagger ui", 50),
    ("openapi text", strContains contentLower "openapi", 40),
    ("api documentation", strContains contentLower "api documentation", 30),
    ("api.html path", strEndsWith cleanUrl "/api.html", 60),
    ("api docs path",
      (strContains (lowerStr cleanUrl) "/api" &&
        (strContains (lowerStr cleanUrl) "doc" || strContains (lowerStr cleanUrl) "api.html")), 50),
    ("rest api indicators",
      (["rest api", "api endpoint", "api reference"].any
        (fun t => strContains contentLower t)), 40),
    ("http methods", decide (countHttpMethodTokens html ≥ 3), 50),
    ("json response",
      (strContains contentLower "application/json" ||
        strContains contentLower "\"application/json\""), 30) ]

/-- Run the check table: collect indicator names and the weight sum (in
hundredths), in table order (the `for name, check_func, weight in checks`
loop). -/
def runChecks (checks : List (String × Bool × ℕ)) : List String × ℕ :=
  checks.foldl
    (fun acc c => if c.2.1 then (acc.1 ++ [c.1], acc.2 + c.2.2) else acc)
    ([], 0)

/-- The detection dictionary `detect_swagger_page` returns. -/
structure DetectionResult where
  is_swagger : Bool
  confidence : ℚ
  indicators : List String
  spec_urls : List String
  extraction_method : String
deriving Repr, DecidableEq

/-- The three quoted-substring patterns, scanned in source order, each match
resolved against the page URL with `urljoin` and dedup-appended. -/
def specPatternScan (url html : String) (start : List String) : List String :=
  ["swagger.json", "openapi.json", "api-docs"].foldl
    (fun acc tok =>
      (scanQuoted tok.toList html.toList).foldl
        (fun a m => dedupAppend a (urljoin url m)) acc)
    start

/-- The fixed well-known spec locations tried against the page's root. -/
def baseSpecPatterns : List String :=
  ["/swagger.json", "/openapi.json", "/api-docs",
   "/v1/swagger.json", "/v2/api-docs", "/swagger/v1/swagger.json"]

/-- The path-heuristic candidates (patterns 1–4 of the source): replace a
trailing `/api.html` or `/docs` segment, else append `swagger.json` to the
page's directory; finally the `/api.html` → `/openapi.json` variant. -/
def pathSpecPatterns (baseUrl path : String) (acc : List String) : List String :=
  if path ≠ "" then
    let acc1 :=
      if strEndsWith path "/api.html" then
        dedupAppend acc (baseUrl ++ pyReplace path "/api.html" "/swagger.json")
      else if strEndsWith path "/docs" || strEndsWith path "/docs/" then
        dedupAppend acc (baseUrl ++ pyReplace (rstripSlash path) "/docs" "/swagger.json")
      else if strContains path "/" then
        let dirPath :=
          if !strEndsWith path "/" then
            strIntercalate "/" (strSplitOn path "/").dropLast
          else rstripSlash path
        dedupAppend acc (baseUrl ++ dirPath ++ "/swagger.json")
      else acc
    if strEndsWith path "/api.html" then
      dedupAppend acc1 (baseUrl ++ pyReplace path "/api.html" "/openapi.json")
    else acc1
  else acc

/-- `SwaggerEnhancedScraper.detect_swagger_page` with the HTML already in hand
(the `html_content is not None` path): strip the fragment, run the weighted
check table, collect candidate spec URLs (pattern scan, then root patterns,
then path heuristics), and classify. -/
def detect_swagger_page (url html : String) (sv : SoupView) : DetectionResult :=
  let cleanUrl := stripFragment url
  let contentLower := lowerStr html
  let checksRun := runChecks (detectionChecks cleanUrl contentLower html sv)
  let indicators := checksRun.1
  let confidence : ℚ := mkRat checksRun.2 100
  let specUrls0 := specPatternScan url html []
  let parsed := parseUrl cleanUrl
  let baseUrl := parsed.scheme ++ "://" ++ parsed.netloc
  let specUrls1 := baseSpecPatterns.foldl (fun a p => dedupAppend a (baseUrl ++ p)) specUrls0
  let specUrls := pathSpecPatterns baseUrl parsed.path specUrls1
  let hasPotentialSpecs := decide (specUrls.length > 0)
  let isSwagger := decide (confidence > mkRat 3 10) || hasPotentialSpecs
  let method :=
    if isSwagger then
      if !specUrls.isEmpty then "openapi_spec" else "html_scraping"
    else "standard_scraping"
  ⟨isSwagger, ratMin confidence (mkRat 1 1), indicators, specUrls, method⟩

/-! ## Lenient JSON parser (`SwaggerEnhancedScraper._parse_json_with_comments`)

`json.loads` is an external library call, modelled as an oracle
`loads : String → Option Json` (`none` = `JSONDecodeError`).  The comment
strippers implement the two `re.sub` calls. -/

/-- Drop everything from the first occurrence of `tok` to the end — worker for
the `//`-comment regex on one line. -/
def dropFromToken (tok : List Char) : List Char → List Char
  | [] => []
  | c :: rest =>
    if tok.isPrefixOf (c :: rest) then [] else c :: dropFromToken tok rest

/-- `re.sub(r'//.*$', '', text, flags=re.MULTILINE)`: on each line, drop from
the first `//` to the end of the line. -/
def stripLineComments (text : String) : String :=
  strIntercalate "\n"
    ((strSplitOn text "\n").map (fun line => String.mk (dropFromToken "//".toList line.toList)))

/-- Drop through the first occurrence of `tok`: the suffix just after it, or
`none` when `tok` does not occur. -/
def dropThroughToken (tok : List Char) : List Char → Option (List Char)
  | [] => none
  | c :: rest =>
    if tok.isPrefixOf (c :: rest) then some ((c :: rest).drop tok.length)
    else dropThroughToken tok rest

theorem dropThroughToken_length (tok : List Char) (l : List Char) :
    ∀ rem, dropThroughToken tok l = some rem → rem.length ≤ l.length := by
  induction l with
  | nil => intro rem h; simp [dropThroughToken] at h
  | cons c rest ih =>
    intro rem h
    simp only [dropThroughToken] at h
    split at h
    · simp only [Option.some.injEq] at h
      simp only [← h, List.length_drop, List.length_cons]
      omega
    · have := ih rem h
      simp only [List.length_cons]
      omega

/-- `re.sub(r'/\*.*?\*/', '', s, flags=re.DOTALL)`: repeatedly remove, left to
right, the region from a `/*` to the nearest following `*/`; a `/*` with no
closing `*/` matches nothing (and then no later one can match either, since
any later `*/` would also close the earlier `/*`).  Fuel-based structural
recursion; the wrapper's fuel always suffices. -/
def stripBlockCommentsAux : ℕ → List Char → List Char
  | 0, l => l
  | _ + 1, [] => []
  | fuel + 1, c :: rest =>
    if ("/*".toList).isPrefixOf (c :: rest) then
      match dropThroughToken "*/".toList ((c :: rest).drop 2) with
      | some after => stripBlockCommentsAux fuel after
      | none => c :: rest
    else
      c :: stripBlockCommentsAux fuel rest

/-- The block-comment `re.sub` on strings. -/
def stripBlockComments (s : String) : String :=
  String.mk (stripBlockCommentsAux s.toList.length s.toList)

/-- `SwaggerEnhancedScraper._parse_json_with_comments`: strict parse first; on
`JSONDecodeError`, strip `//` comments, then `/* */` comments, and retry;
`none` when the cleaned text still fails (the Python function catches every
exception and returns `None` — it never raises, which the model reflects by
being a total function into `Option`). -/
def parse_json_with_comments (loads : String → Option Json) (text : String) :
    Option Json :=
  match loads text with
  | some v => some v
  | none => loads (stripBlockComments (stripLineComments text))

/-! ## Spec fetching and validation (`SwaggerEnhancedScraper.extract_openapi_spec`) -/

/-- The observable outcome of fetching one candidate URL: HTTP status and body
text.  A fetch oracle returns `none` when the request raises (timeout,
connection error, ...), which the source's `except` swallows before moving to
the next candidate. -/
structure FetchResp where
  status : ℕ
  body : String
deriving Repr, DecidableEq

/-- `spec_data and any(key in spec_data for key in ['swagger', 'openapi',
'paths'])` — the validation test applied to a parsed candidate body. -/
def validateSpecData (j : Json) : Bool :=
  jsonTruthy j && (["swagger", "openapi", "paths"].any (fun k => jsonHasKey k j))

/-- The successful return value of `extract_openapi_spec` (the source also
carries `'success': True`, constant on this path). -/
structure SpecFetchSuccess where
  spec : Json
  source_url : String

/-- `SwaggerEnhancedScraper.extract_openapi_spec`: walk the candidate list in
order; the first candidate that fetches with status 200 and whose leniently
parsed body validates wins; exceptions and failed validations fall through to
the next candidate; `none` when the list is exhausted. -/
def extract_openapi_spec (fetch : String → Option FetchResp)
    (loads : String → Option Json) : List String → Option SpecFetchSuccess
  | [] => none
  | u :: rest =>
    match fetch u with
    | none => extract_openapi_spec fetch loads rest
    | some r =>
      if r.status = 200 then
        match parse_json_with_comments loads r.body with
        | some sd =>
          if validateSpecData sd then some ⟨sd, u⟩
          else extract_openapi_spec fetch loads rest
        | none => extract_openapi_spec fetch loads rest
      else extract_openapi_spec fetch loads rest

/-! ## Spec parsing (`SwaggerEnhancedScraper.parse_openapi_spec`)

The Python function performs unguarded dict operations; where a malformed
document would make it raise (a non-dict where `.get`/`.items()` is called, a
non-list `parameters` array, ...), the model returns `none` — the exception
then surfaces through `enhanced_extract`'s catch-all.  Minor unreachable
Python edge cases (iterating an empty non-list container yields zero
iterations instead of raising) are also mapped to `none`. -/

/-- `mapM` over `Option`, defined by hand for easy induction. -/
def optMapM {α β : Type} (f : α → Option β) : List α → Option (List β)
  | [] => some []
  | a :: rest => do
    let b ← f a
    let bs ← optMapM f rest
    pure (b :: bs)

theorem optMapM_length {α β : Type} (f : α → Option β) (l : List α) :
    ∀ r, optMapM f l = some r → r.length = l.length := by
  induction l with
  | nil => intro r h; simp only [optMapM, Option.some.injEq] at h; simp [← h]
  | cons a rest ih =>
    intro r h
    simp only [optMapM, Option.bind_eq_bind, Option.bind_eq_some, Option.pure_def,
      Option.some.injEq] at h
    obtain ⟨b, hb, bs, hbs, hr⟩ := h
    have := ih bs hbs
    simp only [← hr, List.length_cons]
    omega

/-- One entry of the `parameters` list of an endpoint — the `param_info` dict
(`'in'` is a Lean keyword, hence the guillemets). -/
structure ParamInfo where
  name : Option Json
  «in» : Option Json
  required : Json
  type : Json
  description : Json
  «example» : Option Json

/-- The `response_info` dict built for one status code. -/
structure ResponseInfo where
  description : Json
  schema : Json
  examples : List (String × Json)

/-- The `endpoint_info` dict: one extracted API operation.  The `examples`
list is heterogeneous in the source (record-shaped dicts, plus raw values
from a legacy list-shaped `operation['examples']`), hence `List Json`. -/
structure EndpointInfo where
  method : String
  path : String
  summary : Json
  description : Json
  parameters : List ParamInfo
  responses : List (String × ResponseInfo)
  examples : List Json

/-- The `api_info` sub-dict of the parse result. -/
structure ApiInfo where
  title : Json
  version : Json
  description : Json
  base_url : String

/-- The dictionary `parse_openapi_spec` returns. -/
structure ApiData where
  api_info : ApiInfo
  endpoints : List EndpointInfo
  total_endpoints : ℕ

/-- The recognized HTTP-method keys (`method.lower() in [...]`). -/
def recognizedHttpMethods : List String :=
  ["get", "post", "put", "delete", "patch", "options", "head"]

/-- `example_data.get('value', example_data)` — requires a dict. -/
def exampleValueOf (edata : Json) : Option Json :=
  match edata with
  | .obj items => some ((items.lookup "value").getD edata)
  | _ => none

/-- The request-body `ExampleRecord`s of one operation: for each content type
of `operation['requestBody']['content']`, an entry for an inline `example`
and one per named entry of `examples`. -/
def requestBodyExamples (opItems : List (String × Json)) : Option (List Json) :=
  match opItems.lookup "requestBody" with
  | none => some []
  | some rb =>
    match rb.asObj with
    | none => some []
    | some rbItems =>
      match rbItems.lookup "content" with
      | none => some []
      | some content => do
        let citems ← content.asObj
        let lists ← optMapM (fun (ci : String × Json) =>
          match ci.2.asObj with
          | none => some []
          | some ciItems => do
            let inline : List Json :=
              match ciItems.lookup "example" with
              | some ex =>
                [Json.obj [("type", .str "request_body"), ("content_type", .str ci.1),
                           ("example", ex)]]
              | none => []
            let named ←
              match ciItems.lookup "examples" with
              | none => some []
              | some exs => do
                let eitems ← exs.asObj
                optMapM (fun (e : String × Json) => do
                  let v ← exampleValueOf e.2
                  pure (Json.obj [("type", .str "request_body"), ("name", .str e.1),
                                  ("content_type", .str ci.1), ("example", v)])) eitems
            pure (inline ++ named)) citems
        pure lists.flatten

/-- The per-status-code processing of `operation.get('responses', {})`: builds
the `response_info` dict and the response-`ExampleRecord`s appended to the
endpoint. -/
def parseResponse (statusCode : String) (resp : Json) :
    Option (ResponseInfo × List Json) := do
  let respItems ← resp.asObj
  let baseInfo : ResponseInfo :=
    { description := (respItems.lookup "description").getD (.str "")
      schema := (respItems.lookup "schema").getD (.obj [])
      examples := [] }
  let contentStep ←
    match respItems.lookup "content" with
    | none => some (baseInfo, ([] : List Json))
    | some content => do
      let citems ← content.asObj
      citems.foldlM (fun (acc : ResponseInfo × List Json) ci => do
        let info := acc.1
        let recs := acc.2
        match ci.2.asObj with
        | none => some (info, recs)
        | some ciItems => do
          let step1 : ResponseInfo × List Json :=
            match ciItems.lookup "example" with
            | some ex =>
              ({ info with examples := pyDictSet info.examples ci.1 ex },
               recs ++ [Json.obj [("type", .str "response"), ("status_code", .str statusCode),
                                  ("content_type", .str ci.1), ("example", ex)]])
            | none => (info, recs)
          match ciItems.lookup "examples" with
          | none => some step1
          | some exs => do
            let eitems ← exs.asObj
            eitems.foldlM (fun (acc2 : ResponseInfo × List Json) e => do
              let v ← exampleValueOf e.2
              pure ({ acc2.1 with
                        examples := pyDictSet acc2.1.examples (ci.1 ++ "_" ++ e.1) v },
                    acc2.2 ++ [Json.obj [("type", .str "response"), ("name", .str e.1),
                                         ("status_code", .str statusCode),
                                         ("content_type", .str ci.1), ("example", v)]]))
              step1) (baseInfo, [])
  let legacyStep ←
    match respItems.lookup "examples" with
    | none => some contentStep
    | some legacy => do
      let litems ← legacy.asObj
      pure ({ contentStep.1 with examples := pyDictUpdate contentStep.1.examples litems },
            contentStep.2 ++ litems.map (fun e =>
              Json.obj [("type", .str "response"), ("name", .str e.1),
                        ("status_code", .str statusCode), ("example", e.2)]))
  pure legacyStep

/-- `operation['examples']` handling: a list is extended raw; a dict becomes
`operation`-kind records; other shapes contribute nothing. -/
def operationExamples (opItems : List (String × Json)) : List Json :=
  match opItems.lookup "examples" with
  | some (.arr l) => l
  | some (.obj items) =>
    items.map (fun e => Json.obj [("type", .str "operation"), ("name", .str e.1),
                                  ("example", e.2)])
  | _ => []

/-- Build the `endpoint_info` dict for one recognized `(path, method)` pair. -/
def parseEndpointOperation (path method : String) (op : Json) :
    Option EndpointInfo := do
  let opItems ← op.asObj
  let params ←
    match opItems.lookup "parameters" with
    | none => some []
    | some ps => do
      let elems ← ps.asArr
      optMapM (fun p => do
        let pItems ← p.asObj
        pure { name := pItems.lookup "name"
               «in» := pItems.lookup "in"
               required := (pItems.lookup "required").getD (.bool false)
               type := (pItems.lookup "type").getD (.str "")
               description := (pItems.lookup "description").getD (.str "")
               «example» := pItems.lookup "example" : ParamInfo }) elems
  let rbRecords ← requestBodyExamples opItems
  let respTriples ←
    match opItems.lookup "responses" with
    | none => some []
    | some resps => do
      let ritems ← resps.asObj
      optMapM (fun (r : String × Json) => do
        let pr ← parseResponse r.1 r.2
        pure (r.1, pr.1, pr.2)) ritems
  let responses := respTriples.foldl
    (fun acc t => acc ++ [(t.1, t.2.1)]) ([] : List (String × ResponseInfo))
  let respRecords := (respTriples.map (fun t => t.2.2)).flatten
  pure { method := upperStr method
         path := path
         summary := (opItems.lookup "summary").getD (.str "")
         description := (opItems.lookup "description").getD (.str "")
         parameters := params
         responses := responses
         examples := rbRecords ++ respRecords ++ operationExamples opItems }

/-- `SwaggerEnhancedScraper.parse_openapi_spec`: one `EndpointInfo` per
`(path, method)` pair whose method key is recognized, in document order, plus
the `api_info` header and `total_endpoints = len(endpoints)`. -/
def parse_openapi_spec (spec : Json) : Option ApiData := do
  let specItems ← spec.asObj
  let pathItems ← ((specItems.lookup "paths").getD (.obj [])).asObj
  let endpointLists ← optMapM (fun (pm : String × Json) => do
    let mItems ← pm.2.asObj
    let recognized := mItems.filter (fun mi => recognizedHttpMethods.contains (lowerStr mi.1))
    optMapM (fun (mi : String × Json) => parseEndpointOperation pm.1 mi.1 mi.2) recognized)
    pathItems
  let endpoints := endpointLists.flatten
  let infoItems ← ((specItems.lookup "info").getD (.obj [])).asObj
  let host ← ((specItems.lookup "host").getD (.str "")).asStr
  let basePath ← ((specItems.lookup "basePath").getD (.str "")).asStr
  pure { api_info :=
           { title := (infoItems.lookup "title").getD (.str "")
             version := (infoItems.lookup "version").getD (.str "")
             description := (infoItems.lookup "description").getD (.str "")
             base_url := host ++ basePath }
         endpoints := endpoints
         total_endpoints := endpoints.length }

/-! ## HTML fallback extraction (`SwaggerEnhancedScraper.scrape_swagger_html`)

The BeautifulSoup queries are modelled by view structures carrying the text
each lookup would return. -/

/-- One `<tr>`/parameter row inside an endpoint block. -/
structure BlockRowView where
  /-- text of the `parameter.*name`-classed element, when found. -/
  nameText : Option String
  /-- text of the `parameter.*description`-classed element, when found. -/
  descText : Option String
  /-- a string matching `required` (case-insensitive) exists in the row. -/
  hasRequiredMarker : Bool
deriving Repr, DecidableEq

/-- One `opblock`/`endpoint`/`operation`-classed block. -/
structure BlockView where
  methodText : Option String
  pathText : Option String
  descText : Option String
  paramRows : List BlockRowView
  exampleTexts : List String
deriving Repr, DecidableEq

/-- The DOM data `scrape_swagger_html` reads from a page. -/
structure FallbackView where
  /-- text of the first `<h1>` (or title/header-classed) element, when found. -/
  titleText : Option String
  blocks : List BlockView
deriving Repr, DecidableEq

/-- A parameter dict of a fallback-scraped endpoint.  The dict initially has
no `example` key; the enricher may add one, so the field is an option. -/
structure FallbackParam where
  name : String
  description : String
  required : Bool
  «example» : Option Json

/-- An endpoint dict of a fallback-scraped page.  Its `examples` list holds
strings from the DOM; the enricher later appends record-shaped dicts, so the
list is `List Json` with the scraped entries as `.str`. -/
structure FallbackEndpoint where
  method : String
  path : String
  description : String
  parameters : List FallbackParam
  examples : List Json

/-- The dictionary `scrape_swagger_html` returns. -/
structure FallbackApiData where
  title : String
  endpoints : List FallbackEndpoint
  total_endpoints : ℕ
  extraction_method : String

/-- `SwaggerEnhancedScraper.scrape_swagger_html` on a fetched page: one
endpoint per block for which both a method and a path were found; partial
blocks are dropped silently. -/
def scrape_swagger_html (fv : FallbackView) : FallbackApiData :=
  let endpoints := fv.blocks.foldl (fun acc b =>
    let method := (b.methodText.map (fun t => upperStr (trimStr t))).getD ""
    let path := (b.pathText.map trimStr).getD ""
    let desc := (b.descText.map trimStr).getD ""
    let params := b.paramRows.foldl (fun ps r =>
      match r.nameText with
      | some n =>
        ps ++ [{ name := trimStr n
                 description := (r.descText.map trimStr).getD ""
                 required := r.hasRequiredMarker
                 «example» := none : FallbackParam }]
      | none => ps) []
    let exs := b.exampleTexts.foldl (fun es e =>
      let t := trimStr e
      if t ≠ "" ∧ t.length > 5 then es ++ [Json.str t] else es) []
    if method ≠ "" ∧ path ≠ "" then
      acc ++ [{ method := method, path := path, description := desc
                parameters := params, examples := exs : FallbackEndpoint }]
    else acc) []
  { title := (fv.titleText.map trimStr).getD ""
    endpoints := endpoints
    total_endpoints := endpoints.length
    extraction_method := "html_scraping" }

/-! ## Example enrichment
(`SwaggerEnhancedScraper._enhance_endpoints_with_html_examples`)

`html_examples` is the three-list dictionary `extract_examples_from_html`
mines from the page DOM; the enricher receives it ready-made.  `none` stands
for the empty dict `{}` used when no HTML content was available — the
function's `if not html_examples: return` guard. -/

/-- The dictionary of example strings mined from HTML. -/
structure HtmlExamples where
  parameter_examples : List String
  response_examples : List String
  code_examples : List String
deriving Repr, DecidableEq

/-- Truthiness of an absent-or-present dict value. -/
def optTruthy (o : Option Json) : Bool :=
  match o with
  | none => false
  | some v => jsonTruthy v

/-- The lowercased parameter name, `param.get('name', '').lower()`: `none`
models the `AttributeError` a non-string name would raise. -/
def lowerParamName (name : Option Json) : Option String :=
  match name with
  | none => some ""
  | some (.str s) => some (lowerStr s)
  | some _ => none

/-- The parameter-example loop body: first mined example whose text contains
the parameter name (case-insensitively), or the sole candidate when exactly
one exists. -/
def pickParamExample (pname : String) (candidates : List String) : Option String :=
  candidates.find? (fun ex =>
    strContains (lowerStr ex) pname || decide (candidates.length = 1))

/-- Enrich one spec-parsed endpoint: parameter examples, then response
examples (only when the endpoint has none), then code examples
(unconditionally). -/
def enhanceOneEndpoint (hx : HtmlExamples) (ep : EndpointInfo) :
    Option EndpointInfo := do
  let params ← optMapM (fun (p : ParamInfo) =>
    if !optTruthy p.example && !hx.parameter_examples.isEmpty then do
      let pname ← lowerParamName p.name
      match pickParamExample pname hx.parameter_examples with
      | some ex => pure { p with «example» := some (.str ex) }
      | none => pure p
    else pure p) ep.parameters
  let examples1 :=
    if ep.examples.isEmpty ∧ ¬hx.response_examples.isEmpty then
      ep.examples ++ (hx.response_examples.take 3).map (fun e =>
        Json.obj [("type", .str "html_extracted"), ("example", .str e)])
    else ep.examples
  let examples2 :=
    if ¬hx.code_examples.isEmpty then
      examples1 ++ (hx.code_examples.take 2).map (fun e =>
        Json.obj [("type", .str "code_example"), ("example", .str e)])
    else examples1
  pure { ep with parameters := params, examples := examples2 }

/-- `_enhance_endpoints_with_html_examples` over spec-parsed endpoints. -/
def enhance_endpoints_with_html_examples (endpoints : List EndpointInfo)
    (hx : Option HtmlExamples) : Option (List EndpointInfo) :=
  match hx with
  | none => some endpoints
  | some h => optMapM (enhanceOneEndpoint h) endpoints

/-- The same enrichment applied to fallback-scraped endpoints (the source
reuses one dynamically-typed function for both endpoint shapes). -/
def enhanceOneFallback (hx : HtmlExamples) (ep : FallbackEndpoint) :
    FallbackEndpoint :=
  let params := ep.parameters.map (fun p =>
    if !optTruthy p.example && !hx.parameter_examples.isEmpty then
      match pickParamExample (lowerStr p.name) hx.parameter_examples with
      | some ex => { p with «example» := some (.str ex) }
      | none => p
    else p)
  let examples1 :=
    if ep.examples.isEmpty ∧ ¬hx.response_examples.isEmpty then
      ep.examples ++ (hx.response_examples.take 3).map (fun e =>
        Json.obj [("type", .str "html_extracted"), ("example", .str e)])
    else ep.examples
  let examples2 :=
    if ¬hx.code_examples.isEmpty then
      examples1 ++ (hx.code_examples.take 2).map (fun e =>
        Json.obj [("type", .str "code_example"), ("example", .str e)])
    else examples1
  { ep with parameters := params, examples := examples2 }

/-- The enrichment pass over fallback endpoints. -/
def enhanceFallbackList (endpoints : List FallbackEndpoint)
    (hx : Option HtmlExamples) : List FallbackEndpoint :=
  match hx with
  | none => endpoints
  | some h => endpoints.map (enhanceOneFallback h)

/-! ## `SwaggerEnhancedScraper.enhanced_extract` (with page HTML in hand) -/

/-- The shape of the dictionary `enhanced_extract` returns: the not-a-Swagger
early return, the spec-based success, the HTML-fallback success, or the
catch-all error dictionary produced when a step inside the `try` raises. -/
inductive EnhancedOutcome where
  | notSwagger (confidence : ℚ) (indicators : List String)
  | specBased (confidence : ℚ) (api_data : ApiData) (spec_source : String)
  | htmlScraped (confidence : ℚ) (api_data : FallbackApiData)
  | raised

/-- The `extraction_method` field of the returned dictionary (absent on the
not-a-Swagger and error paths). -/
def EnhancedOutcome.extraction_method : EnhancedOutcome → Option String
  | .specBased _ _ _ => some "openapi_spec"
  | .htmlScraped _ _ => some "html_scraping"
  | _ => none

/-- `SwaggerEnhancedScraper.enhanced_extract`: detect; when classified as
Swagger, try the spec candidates in order, and fall back to HTML scraping
when none validates; enrich the chosen model with the mined HTML examples. -/
def enhanced_extract (fetch : String → Option FetchResp)
    (loads : String → Option Json) (url html : String) (sv : SoupView)
    (fv : FallbackView) (hx : Option HtmlExamples) : EnhancedOutcome :=
  let det := detect_swagger_page url html sv
  if !det.is_swagger then .notSwagger det.confidence det.indicators
  else
    match extract_openapi_spec fetch loads det.spec_urls with
    | some sr =>
      match parse_openapi_spec sr.spec with
      | none => .raised
      | some ad =>
        match enhance_endpoints_with_html_examples ad.endpoints hx with
        | none => .raised
        | some eps => .specBased det.confidence { ad with endpoints := eps } sr.source_url
    | none =>
      let ad := scrape_swagger_html fv
      .htmlScraped det.confidence
        { ad with endpoints := enhanceFallbackList ad.endpoints hx }

/-! ## Processing statistics (`FailureReason`, `ProcessingStats`)

The wall-clock fields (`processing_start_time`, `processing_end_time`, the
failure timestamp) are omitted: no claim observes them and they come from
`time.time()` / `datetime.now()`. -/

/-- The `FailureReason` enumeration. -/
inductive FailureReason where
  | connection_error
  | timeout_error
  | http_error
  | processing_error
  | content_extraction_error
  | bedrock_error
  | swagger_detection_error
  | openapi_spec_error
  | api_endpoint_extraction_error
  | unknown_error
deriving Repr, DecidableEq

/-- One entry of the `failed_urls` map (`{reason, error_msg}`; timestamp
omitted). -/
structure FailureRecord where
  reason : FailureReason
  error_msg : String
deriving Repr, DecidableEq

/-- The `ProcessingStats` dataclass. -/
structure ProcessingStats where
  base_url : String
  total_urls_discovered : ℕ := 0
  successful_urls : List String := []
  failed_urls : List (String × FailureRecord) := []
  swagger_pages_detected : ℕ := 0
  api_endpoints_extracted : ℕ := 0
  swagger_extraction_methods : List (String × ℕ) := []
  swagger_urls : List String := []
deriving Repr, DecidableEq

/-- `ProcessingStats.success_count`. -/
def ProcessingStats.success_count (s : ProcessingStats) : ℕ :=
  s.successful_urls.length

/-- `ProcessingStats.failure_count`. -/
def ProcessingStats.failure_count (s : ProcessingStats) : ℕ :=
  s.failed_urls.length

/-- `ProcessingStats.add_success`: append the URL unless already present. -/
def ProcessingStats.add_success (s : ProcessingStats) (url : String) :
    ProcessingStats :=
  if url ∈ s.successful_urls then s
  else { s with successful_urls := s.successful_urls ++ [url] }

/-- `ProcessingStats.add_failure`: record (or overwrite) the categorized
failure for the URL. -/
def ProcessingStats.add_failure (s : ProcessingStats) (url : String)
    (reason : FailureReason) (msg : String) : ProcessingStats :=
  { s with failed_urls := pyDictSet s.failed_urls url ⟨reason, msg⟩ }

/-- The `if method not in dict: dict[method] = 0; dict[method] += 1` idiom. -/
def bumpCount (items : List (String × ℕ)) (k : String) : List (String × ℕ) :=
  if items.any (fun it => it.1 = k) then
    items.map (fun it => if it.1 = k then (k, it.2 + 1) else it)
  else items ++ [(k, 1)]

/-- `ProcessingStats.add_swagger_detection`. -/
def ProcessingStats.add_swagger_detection (s : ProcessingStats) (url : String)
    (extraction_method : String) (endpoints_count : ℕ) : ProcessingStats :=
  { s with
      swagger_pages_detected := s.swagger_pages_detected + 1
      swagger_urls := s.swagger_urls ++ [url]
      api_endpoints_extracted := s.api_endpoints_extracted + endpoints_count
      swagger_extraction_methods := bumpCount s.swagger_extraction_methods extraction_method }

/-! ## The per-URL pipeline (`URLScraperApp.process_single_url`)

The three network collaborators are oracles indexed by attempt number:
`fetch k` is what `extract_content_via_jina_rate_limited` does on outer
attempt `k` (a single underlying Jina request per call — the function has no
internal retry); `swagger k` is the outcome of `enhanced_extract`; and
`bedrock k i` is what the `invoke_model` call inside `process_with_bedrock`
does on inner attempt `i` of outer attempt `k`.  The model counts the
underlying Jina requests and Bedrock invocations.

In `aiohttp`, `ClientResponseError` is a subclass of `ClientError`, so the
source's `except aiohttp.ClientError` clause also catches HTTP-status errors
(its later `except aiohttp.ClientResponseError` clause is unreachable); the
dispatch below reflects that. -/

/-- Outcome of one call of the content-extraction collaborator. -/
inductive FetchOutcome where
  | ok (content : String)
  | timeoutErr (msg : String)
  | clientErr (msg : String)
  | respErr (msg : String)
  | otherErr (msg : String)
deriving Repr, DecidableEq

/-- The `FailureReason` the `except` chain assigns to a raising fetch
(`none` for a non-raising one). -/
def fetchFailureReason : FetchOutcome → Option FailureReason
  | .ok _ => none
  | .timeoutErr _ => some .timeout_error
  | .clientErr _ => some .connection_error
  | .respErr _ => some .connection_error
  | .otherErr _ => some .content_extraction_error

/-- The exception message of a raising fetch. -/
def fetchErrMsg : FetchOutcome → String
  | .ok _ => ""
  | .timeoutErr m => m
  | .clientErr m => m
  | .respErr m => m
  | .otherErr m => m

/-- Outcome of the Swagger-detection step (`enhanced_extract`), as
`process_single_url` observes it: either the result dictionary's fields it
reads, or a raised exception. -/
inductive SwaggerStepOutcome where
  | res (is_swagger : Bool) (success : Bool) (confidence : ℚ)
        (extraction_method : String) (endpoints_count : ℕ)
  | thrown (msg : String)
deriving Repr, DecidableEq

/-- Outcome of one underlying Bedrock `invoke_model` call.  All three error
classes the source distinguishes (connection-pool, throttling, other) differ
only in backoff delay, not in control flow, so one constructor suffices. -/
inductive BedrockOutcome where
  | ok (content : String)
  | err (msg : String)
deriving Repr, DecidableEq

/-- The oracle bundle for one URL's processing. -/
structure UrlEnv where
  fetch : ℕ → FetchOutcome
  swagger : ℕ → SwaggerStepOutcome
  bedrock : ℕ → ℕ → BedrockOutcome

/-- How many underlying collaborator calls a run performed. -/
structure RunCounts where
  jina : ℕ := 0
  bedrock : ℕ := 0
deriving Repr, DecidableEq

/-- The `swagger_info` block attached to a successful result when the page
was classified as Swagger. -/
structure SwaggerInfoRecord where
  is_swagger : Bool
  confidence : ℚ
  extraction_method : String
  endpoints_count : ℕ
deriving Repr, DecidableEq

/-- The per-URL result dictionary of `process_single_url` (the enhanced
markdown string produced by `format_swagger_content_for_llm` is pure string
formatting no claim observes; the model carries the fetched content). -/
structure ProcessedResult where
  original_url : String
  base_url : String
  raw_markdown : String
  processed_content : String
  swagger_info : Option SwaggerInfoRecord
deriving Repr, DecidableEq

/-- `URLScraperApp.process_with_bedrock`, counting `invoke_model` calls: up
to `max_retries = 3` inner attempts (`for attempt in range(max_retries)`),
returning the first successful content, `None` on exhaustion. -/
def bedrockAttempts (oracle : ℕ → BedrockOutcome) : ℕ → ℕ → Option String × ℕ
  | _, 0 => (none, 0)
  | i, fuel + 1 =>
    match oracle i with
    | .ok c => (some c, 1)
    | .err _ =>
      let r := bedrockAttempts oracle (i + 1) fuel
      (r.1, r.2 + 1)

/-- `process_with_bedrock` with its fixed inner budget of 3 attempts. -/
def process_with_bedrock (oracle : ℕ → BedrockOutcome) : Option String × ℕ :=
  bedrockAttempts oracle 0 3

/-- The body of `process_single_url`'s retry loop, from outer attempt `k`
with `fuel` loop iterations left (the source runs
`for attempt in range(max_retries + 1)` with `max_retries = 2`; the
`return None` after the loop is unreachable and corresponds to `fuel = 0`).
Returns the result, the updated statistics, and the call counts. -/
def pusGo (env : UrlEnv) (url base_url : String) :
    ℕ → ℕ → ProcessingStats → RunCounts →
    Option ProcessedResult × ProcessingStats × RunCounts
  | 0, _, s, c => (none, s, c)
  | fuel + 1, k, s, c =>
    let c1 : RunCounts := { c with jina := c.jina + 1 }
    match env.fetch k with
    | .ok content =>
      if content = "" then
        -- `if not markdown_content:` — empty extraction
        if k < 2 then pusGo env url base_url fuel (k + 1) s c1
        else (none,
              s.add_failure url .content_extraction_error
                "Failed to extract content via Jina API after all retries", c1)
      else
        -- Step 2: Swagger detection (failure recorded, never fatal)
        let sw := env.swagger k
        let s2 :=
          match sw with
          | .thrown m =>
            s.add_failure url .swagger_detection_error ("Swagger detection failed: " ++ m)
          | .res isw succ _ em cnt =>
            if isw && succ then s.add_swagger_detection url em cnt else s
        let swInfo : Option SwaggerInfoRecord :=
          match sw with
          | .thrown _ => none
          | .res isw succ conf em cnt =>
            if isw then some ⟨true, conf, em, cnt⟩ else none
        -- Step 3: Bedrock processing
        let br := process_with_bedrock (env.bedrock k)
        let c2 : RunCounts := { c1 with bedrock := c1.bedrock + br.2 }
        match br.1 with
        | some pc =>
          if pc = "" then
            -- `if not processed_content:` — falsy result
            if k < 2 then pusGo env url base_url fuel (k + 1) s2 c2
            else (none,
                  s2.add_failure url .bedrock_error
                    "Failed to process content with Bedrock after all retries", c2)
          else
            (some { original_url := url, base_url := base_url,
                    raw_markdown := content, processed_content := pc,
                    swagger_info := swInfo }, s2, c2)
        | none =>
          if k < 2 then pusGo env url base_url fuel (k + 1) s2 c2
          else (none,
                s2.add_failure url .bedrock_error
                  "Failed to process content with Bedrock after all retries", c2)
    | f =>
      match fetchFailureReason f with
      | some reason =>
        if k < 2 then pusGo env url base_url fuel (k + 1) s c1
        else (none, s.add_failure url reason (fetchErrMsg f), c1)
      | none => (none, s, c1)  -- unreachable: `f` is a raising outcome here

/-- `URLScraperApp.process_single_url`: the retry loop with
`max_retries + 1 = 3` iterations. -/
def process_single_url (env : UrlEnv) (url base_url : String)
    (s : ProcessingStats) :
    Option ProcessedResult × ProcessingStats × RunCounts :=
  pusGo env url base_url 3 0 s {}

/-- The completion handler of `scrape_and_process` for one URL: a returned
result records a success, a `None` result records a `PROCESSING_ERROR`
failure. -/
def runOneUrl (env : UrlEnv) (url base_url : String) (s : ProcessingStats) :
    ProcessingStats × RunCounts × Option ProcessedResult :=
  let r := process_single_url env url base_url s
  match r.1 with
  | some res => (r.2.1.add_success url, r.2.2, some res)
  | none =>
    (r.2.1.add_failure url .processing_error "Processing returned None result",
     r.2.2, none)

/-! ## Rate limiter (`URLScraperApp.extract_content_via_jina_rate_limited`)

Model of the sliding-window limiter with an explicit interleaving semantics.
The code between two `await` points runs atomically under asyncio, giving two
atomic phases per call: the filter/check/(append-or-compute-sleep) before a
possible `asyncio.sleep`, and the re-filter/append after it.  Model time is
an integer (seconds). -/

/-- The limiter's shared state: the `jina_rate_limiter` timestamp list, plus
the (ghost) list of admission timestamps. -/
structure RLState where
  window : List Int
  admitted : List Int
deriving Repr, DecidableEq

/-- `[t for t in w if current_time - t < 60]`. -/
def rlFilter (t : Int) (w : List Int) : List Int :=
  w.filter (fun x => t - x < 60)

/-- The atomic code before a possible sleep: filter the window; when 20 or
more requests remain, compute the wake-up time `t + (60 - (t - w[0]))` and
suspend (returning `some` wake time); otherwise append and admit now. -/
def rlPhase1 (t : Int) (s : RLState) : RLState × Option Int :=
  let w := rlFilter t s.window
  if w.length ≥ 20 then
    let sleepTime := 60 - (t - w.headD 0)
    if sleepTime > 0 then ({ s with window := w }, some (t + sleepTime))
    else ({ window := w ++ [t], admitted := s.admitted ++ [t] }, none)
  else ({ window := w ++ [t], admitted := s.admitted ++ [t] }, none)

/-- The atomic code after the sleep: re-filter at the wake time, then append
and admit — with no re-check of the window count. -/
def rlPhase2 (t : Int) (s : RLState) : RLState :=
  let w := rlFilter t s.window
  { window := w ++ [t], admitted := s.admitted ++ [t] }

/-- One scheduler event: a call arriving (running its first phase at time
`t`), or a sleeping call waking (running its second phase at time `t`). -/
inductive RLStep where
  | arrive (t : Int)
  | wake (t : Int)
deriving Repr, DecidableEq

/-- The time an event occurs at. -/
def RLStep.time : RLStep → Int
  | .arrive t => t
  | .wake t => t

/-- Execute one event against the state and the multiset of pending wake
times; a `wake t` is valid only for an actually pending sleeper. -/
def rlStep : RLState × List Int → RLStep → Option (RLState × List Int)
  | (s, pend), .arrive t =>
    match rlPhase1 t s with
    | (s', none) => some (s', pend)
    | (s', some tw) => some (s', pend ++ [tw])
  | (s, pend), .wake t =>
    if t ∈ pend then some (rlPhase2 t s, pend.erase t) else none

/-- Run a schedule from the empty limiter. -/
def rlRun (steps : List RLStep) : Option (RLState × List Int) :=
  steps.foldlM rlStep (⟨[], []⟩, [])

/-- Event times are non-decreasing (temporal consistency of a schedule). -/
def monotoneTimes : List Int → Bool
  | [] => true
  | [_] => true
  | a :: b :: r => decide (a ≤ b) && monotoneTimes (b :: r)

/-- Number of admissions inside the trailing 60-second window ending at `T`
(the same strict age convention `current_time - t < 60` the code uses). -/
def admittedInWindow (admitted : List Int) (T : Int) : ℕ :=
  (admitted.filter (fun t => T - t < 60 ∧ t ≤ T)).length

/-! ## Concrete inputs and specification-side definitions used by the theorems -/

/-- Concrete statistics value used by the C10 witness. -/
def c10Stats : ProcessingStats :=
  { base_url := "b", successful_urls := ["u"] }

/-- The all-negative DOM view (every BeautifulSoup lookup finds nothing). -/
def svAllFalse : SoupView := ⟨false, false, false, false, none, false, false⟩

/-- The URL of the plain-prose scenario. -/
def c1Url : String := "https://example.com/guide"

/-- A plain-prose documentation page with no API-related tokens. -/
def c1Html : String := "Plain prose about gardening. Nothing else here."

/-- The fetch oracle on which every request raises — no machine-readable spec
is reachable anywhere. -/
def fetchNone : String → Option FetchResp := fun _ => none

/-- A `json.loads` oracle (never consulted when every fetch fails). -/
def loadsNone : String → Option Json := fun _ => none

/-- An empty DOM view for the fallback scraper. -/
def fvEmpty : FallbackView := ⟨none, []⟩

/-- A concrete `json.loads` oracle for the C8 witness: accepts exactly the
string `"ok"`. -/
def c8Loads : String → Option Json :=
  fun s => if s = "ok" then some (Json.num 1) else none

/-- A candidate is accepted iff its fetch returns (no exception) with status
200 and its leniently parsed body validates. -/
def isValidSpecCandidate (fetch : String → Option FetchResp)
    (loads : String → Option Json) (u : String) : Bool :=
  match fetch u with
  | none => false
  | some r =>
    if r.status = 200 then
      match parse_json_with_comments loads r.body with
      | some sd => validateSpecData sd
      | none => false
    else false

/-- The value returned for an accepted candidate. -/
def candidateSpec (fetch : String → Option FetchResp)
    (loads : String → Option Json) (u : String) : Option SpecFetchSuccess :=
  (fetch u).bind (fun r =>
    (parse_json_with_comments loads r.body).map (fun sd => ⟨sd, u⟩))

/-- The item list of the document's `paths` object (empty for an absent
`paths` key). -/
def pathsItemsOf (spec : Json) : List (String × Json) :=
  ((((spec.lookup "paths").getD (.obj [])).asObj).getD [])

/-- The specification-side count: the number of `(path, method)` pairs in the
`paths` object whose method key is in the recognized HTTP-method set. -/
def countRecognizedPairs (pathItems : List (String × Json)) : ℕ :=
  (pathItems.map (fun pm =>
    match pm.2.asObj with
    | some mItems =>
      (mItems.filter (fun mi => recognizedHttpMethods.contains (lowerStr mi.1))).length
    | none => 0)).sum

/-- End-to-end scenario B's specification document, as parsed JSON. -/
def c4Spec : Json :=
  .obj [("openapi", .str "3.0.0"),
        ("paths", .obj [("/pets", .obj [("get", .obj
          [("summary", .str "List pets"),
           ("responses", .obj [("200", .obj [("description", .str "OK")])])])])])]

/-- An endpoint that already carries one example. -/
def c9Endpoint : EndpointInfo :=
  { method := "GET", path := "/pets", summary := .str "", description := .str "",
    parameters := [], responses := [], examples := [.str "existing"] }

/-- Mined HTML examples with one response candidate and one code candidate. -/
def c9Hx : HtmlExamples :=
  { parameter_examples := [], response_examples := ["resp1"],
    code_examples := ["codeblock1"] }

/-- The violating schedule. -/
def c6Trace : List RLStep :=
  [.arrive 0] ++ List.replicate 19 (.arrive 30) ++
    [.arrive 31, .arrive 31, .wake 60, .wake 60]

/-- The environment of the violating run: Swagger detection throws, while
fetch and transformation succeed. -/
def c2Env : UrlEnv :=
  { fetch := fun _ => .ok "page content"
    swagger := fun _ => .thrown "boom"
    bedrock := fun _ _ => .ok "processed" }

/-- A throw-free environment for the C2 witness. -/
def c2BenignEnv : UrlEnv :=
  { fetch := fun _ => .ok "page content"
    swagger := fun _ => .res false false 0 "standard_scraping" 0
    bedrock := fun _ _ => .ok "processed" }

/-- Counterexample environment: content extraction succeeds, Swagger
detection is benign, and every Bedrock invocation fails. -/
def c3Env : UrlEnv :=
  { fetch := fun _ => .ok "page content"
    swagger := fun _ => .res false false 0 "standard_scraping" 0
    bedrock := fun _ _ => .err "throttling detected" }

/-- Always-timing-out fetch environment for the C3 witness. -/
def c3TimeoutEnv : UrlEnv :=
  { fetch := fun _ => .timeoutErr "read timed out"
    swagger := fun _ => .res false false 0 "standard_scraping" 0
    bedrock := fun _ _ => .ok "processed" }

/-! # Theorems about the model -/

/-! ## C10: `add_success` idempotence and distinct counting -/

theorem add_success_successful_urls (s : ProcessingStats) (u : String) :
    (s.add_success u).successful_urls.Nodup ∧
      (s.add_success u).successful_urls.toFinset =
        s.successful_urls.toFinset ∪ {u} ∨ ¬s.successful_urls.Nodup := by
  by_cases hn : s.successful_urls.Nodup
  · left
    by_cases hm : u ∈ s.successful_urls
    · simp only [ProcessingStats.add_success, if_pos hm]
      refine ⟨hn, ?_⟩
      rw [eq_comm, Finset.union_eq_left]
      simpa using hm
    · simp only [ProcessingStats.add_success, if_neg hm]
      constructor
      · exact List.nodup_append.mpr ⟨hn, List.nodup_singleton u, by
          intro a ha hau
          simp only [List.mem_singleton] at hau
          exact hm (hau ▸ ha)⟩
      · simp [List.toFinset_append]
  · right; exact hn

theorem foldl_add_success_invariant (urls : List String) :
    ∀ s : ProcessingStats, s.successful_urls.Nodup →
      (urls.foldl (fun t u => t.add_success u) s).successful_urls.Nodup ∧
      (urls.foldl (fun t u => t.add_success u) s).successful_urls.toFinset =
        s.successful_urls.toFinset ∪ urls.toFinset := by
  induction urls with
  | nil => intro s h; simpa using h
  | cons u rest ih =>
    intro s h
    simp only [List.foldl_cons]
    rcases add_success_successful_urls s u with ⟨h1, h2⟩ | hbad
    · obtain ⟨ih1, ih2⟩ := ih (s.add_success u) h1
      refine ⟨ih1, ?_⟩
      rw [ih2, h2, List.toFinset_cons, Finset.union_assoc, Finset.insert_eq]
    · exact absurd h hbad

/-- C10: recording a success for a URL already present in the success list
leaves the statistics unchanged (`add_success` is idempotent), and after any
sequence of `add_success` calls starting from a fresh `ProcessingStats`,
`success_count` equals the number of distinct URLs recorded. -/
theorem add_success_idempotent_and_distinct_count :
    (∀ (s : ProcessingStats) (url : String), url ∈ s.successful_urls →
        s.add_success url = s) ∧
    ∀ (base : String) (urls : List String),
      (urls.foldl (fun t u => t.add_success u)
          ({ base_url := base } : ProcessingStats)).success_count =
        urls.toFinset.card := by
  constructor
  · intro s url h
    simp [ProcessingStats.add_success, h]
  · intro base urls
    have h := foldl_add_success_invariant urls { base_url := base } (by simp)
    have hcard := List.toFinset_card_of_nodup h.1
    rw [ProcessingStats.success_count, ← hcard, h.2]
    simp

/-- Witness for C10: the already-present hypothesis is satisfiable and the

theorem applies. -/

theorem add_success_idempotent_and_distinct_count_witness :
    "u" ∈ c10Stats.successful_urls ∧ c10Stats.add_success "u" = c10Stats := by
  have hm : "u" ∈ c10Stats.successful_urls := by simp [c10Stats]
  exact ⟨hm, add_success_idempotent_and_distinct_count.1 c10Stats "u" hm⟩

/-! ## C5: Detector confidence bounds and determinism -/

theorem ratMin_one_bounds (n : ℕ) :
    0 ≤ ratMin (mkRat n 100) (mkRat 1 1) ∧ ratMin (mkRat n 100) (mkRat 1 1) ≤ 1 := by
  have h0 : (0 : ℚ) ≤ mkRat n 100 := by
    rw [Rat.mkRat_eq_div]
    positivity
  have h1 : (mkRat 1 1 : ℚ) = 1 := by
    rw [Rat.mkRat_eq_div]
    norm_num
  unfold ratMin
  split
  · exact ⟨h0, by rw [h1] at *; assumption⟩
  · rw [h1]
    exact ⟨zero_le_one, le_refl 1⟩

/-- C5: for every URL, HTML input and DOM view, the confidence in the
`DetectionResult` lies in the closed interval `[0, 1]`, and two calls with
identical inputs return identical results (the detector is a pure function of
its inputs; the model has no other state to draw on, mirroring the absence of
hidden state in the source object). -/
theorem detect_confidence_in_unit_interval_and_deterministic :
    (∀ (url html : String) (sv : SoupView),
        0 ≤ (detect_swagger_page url html sv).confidence ∧
        (detect_swagger_page url html sv).confidence ≤ 1) ∧
    (∀ (url₁ html₁ : String) (sv₁ : SoupView) (url₂ html₂ : String) (sv₂ : SoupView),
        url₁ = url₂ → html₁ = html₂ → sv₁ = sv₂ →
        detect_swagger_page url₁ html₁ sv₁ = detect_swagger_page url₂ html₂ sv₂) := by
  constructor
  · intro url html sv
    simp only [detect_swagger_page]
    exact ratMin_one_bounds _
  · intro url₁ html₁ sv₁ url₂ html₂ sv₂ h1 h2 h3
    rw [h1, h2, h3]

/-- Witness for C5 at a concrete input. -/
theorem detect_confidence_in_unit_interval_and_deterministic_witness :
    (0 ≤ (detect_swagger_page "https://x.org/a" "text" svAllFalse).confidence ∧
      (detect_swagger_page "https://x.org/a" "text" svAllFalse).confidence ≤ 1) ∧
    detect_swagger_page "https://x.org/a" "text" svAllFalse =
      detect_swagger_page "https://x.org/a" "text" svAllFalse :=
  ⟨detect_confidence_in_unit_interval_and_deterministic.1 "https://x.org/a" "text" svAllFalse,
   detect_confidence_in_unit_interval_and_deterministic.2 "https://x.org/a" "text" svAllFalse
     "https://x.org/a" "text" svAllFalse rfl rfl rfl⟩

/-! ## C1: classification of a plain page with no API tokens and no
reachable spec -/

/-- Counterexample to C1: a page with no API tokens (no indicator triggers,
confidence 0) and no reachable spec (every fetch raises) is still classified
`is_swagger = true` with `extraction_method = 'openapi_spec'` — because the
detector always synthesizes root-pattern spec candidates from the URL — where
the claim demands `isApi = false` and the standard method. -/
theorem detect_plain_page_counterexample :
    (detect_swagger_page c1Url c1Html svAllFalse).indicators = [] ∧
    (detect_swagger_page c1Url c1Html svAllFalse).confidence = 0 ∧
    extract_openapi_spec fetchNone loadsNone
      (detect_swagger_page c1Url c1Html svAllFalse).spec_urls = none ∧
    (detect_swagger_page c1Url c1Html svAllFalse).is_swagger = true ∧
    (detect_swagger_page c1Url c1Html svAllFalse).extraction_method = "openapi_spec" := by
  refine ⟨by decide, by decide, rfl, by decide, by decide⟩

theorem runChecks_indicators_nil_weight_zero (cs : List (String × Bool × ℕ)) :
    ∀ acc : List String × ℕ,
      acc.1.length ≤ (cs.foldl
        (fun acc c => if c.2.1 then (acc.1 ++ [c.1], acc.2 + c.2.2) else acc) acc).1.length ∧
      ((cs.foldl
          (fun acc c => if c.2.1 then (acc.1 ++ [c.1], acc.2 + c.2.2) else acc) acc).1.length =
          acc.1.length →
        (cs.foldl
          (fun acc c => if c.2.1 then (acc.1 ++ [c.1], acc.2 + c.2.2) else acc) acc).2 =
          acc.2) := by
  induction cs with
  | nil => intro acc; exact ⟨le_refl _, fun _ => rfl⟩
  | cons c rest ih =>
    intro acc
    simp only [List.foldl_cons]
    by_cases h : c.2.1
    · simp only [h, if_true]
      obtain ⟨ih1, ih2⟩ := ih (acc.1 ++ [c.1], acc.2 + c.2.2)
      simp only [List.length_append, List.length_singleton] at ih1
      constructor
      · omega
      · intro heq
        omega
    · simp only [h, if_false]
      exact ih acc

theorem dedupAppend_ne_nil (l : List String) (x : String) : dedupAppend l x ≠ [] := by
  unfold dedupAppend
  split
  · rename_i h
    intro hnil
    rw [hnil] at h
    simp at h
  · simp

theorem foldl_dedupAppend_ne_nil (g : String → String) (ps : List String) :
    ∀ start : List String, ps ≠ [] ∨ start ≠ [] →
      ps.foldl (fun a p => dedupAppend a (g p)) start ≠ [] := by
  induction ps with
  | nil =>
    intro start h
    simpa using h.resolve_left (by simp)
  | cons p rest ih =>
    intro start _
    simp only [List.foldl_cons]
    exact ih (dedupAppend start (g p)) (Or.inr (dedupAppend_ne_nil start (g p)))

theorem pathSpecPatterns_ne_nil (b p : String) (acc : List String) (h : acc ≠ []) :
    pathSpecPatterns b p acc ≠ [] := by
  unfold pathSpecPatterns
  split_ifs <;> first
    | exact dedupAppend_ne_nil _ _
    | exact h

theorem extract_openapi_spec_fetch_none (fetch : String → Option FetchResp)
    (loads : String → Option Json) (hf : ∀ u, fetch u = none) :
    ∀ urls : List String, extract_openapi_spec fetch loads urls = none := by
  intro urls
  induction urls with
  | nil => rfl
  | cons u rest ih =>
    simp only [extract_openapi_spec, hf u]
    exact ih

theorem detect_spec_urls_ne_nil (url html : String) (sv : SoupView) :
    (detect_swagger_page url html sv).spec_urls ≠ [] := by
  simp only [detect_swagger_page]
  apply pathSpecPatterns_ne_nil
  exact foldl_dedupAppend_ne_nil
    (fun p => (parseUrl (stripFragment url)).scheme ++ "://" ++
      (parseUrl (stripFragment url)).netloc ++ p)
    baseSpecPatterns (specPatternScan url html [])
    (Or.inl (by simp [baseSpecPatterns]))

/-- C1 (amended): for every page none of whose detection indicators triggers
(no API-related tokens), confidence is 0 — below the 0.3 threshold — but the
detector always synthesizes spec-URL candidates from the page URL, so
`specCandidates` is non-empty, the classification rule
`isApi = confidence > 0.3 OR specCandidates non-empty` yields `isApi = true`,
and the reported extraction method is `'openapi_spec'`, not the standard one;
when additionally no spec is reachable, the pipeline falls through to HTML
scraping, which on a page without endpoint blocks produces no
`EndpointModel`. -/
theorem detect_plain_page_amended (url html : String) (sv : SoupView)
    (fetch : String → Option FetchResp) (loads : String → Option Json)
    (fv : FallbackView) (hx : Option HtmlExamples)
    (hind : (detect_swagger_page url html sv).indicators = [])
    (hf : ∀ u, fetch u = none)
    (hfv : fv.blocks = []) :
    (detect_swagger_page url html sv).confidence = 0 ∧
    (detect_swagger_page url html sv).spec_urls ≠ [] ∧
    (detect_swagger_page url html sv).is_swagger = true ∧
    (detect_swagger_page url html sv).extraction_method = "openapi_spec" ∧
    ∃ fb, enhanced_extract fetch loads url html sv fv hx =
        .htmlScraped (detect_swagger_page url html sv).confidence fb ∧
      fb.endpoints = [] ∧ fb.total_endpoints = 0 := by
  have hurls := detect_spec_urls_ne_nil url html sv
  have hconf : (detect_swagger_page url html sv).confidence = 0 := by
    simp only [detect_swagger_page, runChecks] at hind ⊢
    have hz := runChecks_indicators_nil_weight_zero
      (detectionChecks (stripFragment url) (lowerStr html) html sv) ([], 0)
    have h2 := hz.2 (by simp [hind])
    rw [h2]
    decide
  have hsw : (detect_swagger_page url html sv).is_swagger = true := by
    simp only [detect_swagger_page] at hurls ⊢
    have hlen := List.length_pos.mpr hurls
    simp [hlen]
  have hmeth : (detect_swagger_page url html sv).extraction_method = "openapi_spec" := by
    have h1 := hsw
    simp only [detect_swagger_page] at hurls h1 ⊢
    rw [h1]
    simp [List.isEmpty_iff, hurls]
  refine ⟨hconf, hurls, hsw, hmeth, ?_⟩
  refine ⟨{ scrape_swagger_html fv with
            endpoints := enhanceFallbackList (scrape_swagger_html fv).endpoints hx }, ?_, ?_, ?_⟩
  · unfold enhanced_extract
    simp only [hsw, Bool.not_true, Bool.false_eq_true, if_false,
      extract_openapi_spec_fetch_none fetch loads hf]
  · simp only [scrape_swagger_html, hfv, List.foldl_nil, enhanceFallbackList]
    cases hx <;> simp
  · simp [scrape_swagger_html, hfv]

/-- Witness for C1 (amended): the hypotheses hold at the concrete
plain-prose page. -/
theorem detect_plain_page_amended_witness :
    (detect_swagger_page c1Url c1Html svAllFalse).indicators = [] ∧
    fvEmpty.blocks = [] ∧
    ((detect_swagger_page c1Url c1Html svAllFalse).confidence = 0 ∧
      (detect_swagger_page c1Url c1Html svAllFalse).spec_urls ≠ [] ∧
      (detect_swagger_page c1Url c1Html svAllFalse).is_swagger = true ∧
      (detect_swagger_page c1Url c1Html svAllFalse).extraction_method = "openapi_spec" ∧
      ∃ fb, enhanced_extract fetchNone loadsNone c1Url c1Html svAllFalse fvEmpty none =
          .htmlScraped (detect_swagger_page c1Url c1Html svAllFalse).confidence fb ∧
        fb.endpoints = [] ∧ fb.total_endpoints = 0) := by
  refine ⟨by decide, rfl, ?_⟩
  exact detect_plain_page_amended c1Url c1Html svAllFalse fetchNone loadsNone fvEmpty none
    (by decide) (fun _ => rfl) rfl

/-! ## C8: the lenient JSON parser -/

/-- C8: for every input text the lenient parser is a total function into an
optional structured value (the Python function catches every exception, so it
never raises): it returns the strict parse when that succeeds; on a strict
failure it strips `//`-to-end-of-line comments, then `/* ... */` block
comments, and retries; and it returns null exactly when both the strict parse
and the parse of the cleaned text fail.  The concrete equations show the two
strippers acting as described. -/
theorem parse_json_with_comments_total_and_staged :
    (∀ (loads : String → Option Json) (text : String),
      (∀ v, loads text = some v → parse_json_with_comments loads text = some v) ∧
      (loads text = none →
        parse_json_with_comments loads text =
          loads (stripBlockComments (stripLineComments text))) ∧
      (parse_json_with_comments loads text = none ↔
        loads text = none ∧
          loads (stripBlockComments (stripLineComments text)) = none)) ∧
    stripLineComments "key: 1 // note\nnext: 2" = "key: 1 \nnext: 2" ∧
    stripBlockComments "a /* note */ b" = "a  b" := by
  refine ⟨?_, by decide, by decide⟩
  intro loads text
  refine ⟨?_, ?_, ?_⟩
  · intro v hv
    simp [parse_json_with_comments, hv]
  · intro h
    simp [parse_json_with_comments, h]
  · cases h : loads text <;> simp [parse_json_with_comments, h]

/-- Witness for C8: a strict-parse failure takes the strip-and-retry path. -/
theorem parse_json_with_comments_total_and_staged_witness :
    c8Loads "x // y" = none ∧
    parse_json_with_comments c8Loads "x // y" =
      c8Loads (stripBlockComments (stripLineComments "x // y")) := by
  have h : c8Loads "x // y" = none := rfl
  exact ⟨h, (parse_json_with_comments_total_and_staged.1 c8Loads "x // y").2.1 h⟩

/-! ## C7: spec resolution takes the first valid candidate, in list order -/

/-- C7: spec resolution iterates the candidates in list order and returns the
parsed document of the first candidate that fetches with status 200 and whose
parsed body contains one of the keys `swagger`/`openapi`/`paths` (the
validation test; a value containing such a key is in particular truthy, so
the source's conjunct `spec_data and ...` adds nothing); when no candidate
qualifies it returns nothing, and the pipeline then falls through to the
HTML-fallback extraction. -/
theorem extract_openapi_spec_first_valid :
    (∀ (fetch : String → Option FetchResp) (loads : String → Option Json)
        (urls : List String),
      extract_openapi_spec fetch loads urls =
        (urls.find? (isValidSpecCandidate fetch loads)).bind
          (candidateSpec fetch loads)) ∧
    (∀ (fetch : String → Option FetchResp) (loads : String → Option Json)
        (url html : String) (sv : SoupView) (fv : FallbackView)
        (hx : Option HtmlExamples),
      (detect_swagger_page url html sv).is_swagger = true →
      extract_openapi_spec fetch loads (detect_swagger_page url html sv).spec_urls = none →
      (enhanced_extract fetch loads url html sv fv hx).extraction_method =
        some "html_scraping") := by
  constructor
  · intro fetch loads urls
    induction urls with
    | nil => rfl
    | cons u rest ih =>
      simp only [extract_openapi_spec]
      cases hf : fetch u with
      | none =>
        have hvalid : isValidSpecCandidate fetch loads u = false := by
          simp [isValidSpecCandidate, hf]
        rw [List.find?_cons_of_neg _ (by simp [hvalid])]
        exact ih
      | some r =>
        simp only [hf]
        by_cases hst : r.status = 200
        · rw [if_pos hst]
          cases hp : parse_json_with_comments loads r.body with
          | none =>
            have hvalid : isValidSpecCandidate fetch loads u = false := by
              simp [isValidSpecCandidate, hf, hst, hp]
            rw [List.find?_cons_of_neg _ (by simp [hvalid])]
            exact ih
          | some sd =>
            dsimp only
            cases hv : validateSpecData sd with
            | true =>
              have hvalid : isValidSpecCandidate fetch loads u = true := by
                simp [isValidSpecCandidate, hf, hst, hp, hv]
              rw [List.find?_cons_of_pos _ hvalid]
              simp [candidateSpec, hf, hp]
            | false =>
              have hvalid : isValidSpecCandidate fetch loads u = false := by
                simp [isValidSpecCandidate, hf, hst, hp, hv]
              rw [List.find?_cons_of_neg _ (by simp [hvalid])]
              simpa using ih
        · have hvalid : isValidSpecCandidate fetch loads u = false := by
            simp [isValidSpecCandidate, hf, hst]
          rw [if_neg hst, List.find?_cons_of_neg _ (by simp [hvalid])]
          exact ih
  · intro fetch loads url html sv fv hx hsw hext
    unfold enhanced_extract
    simp only [hsw, Bool.not_true, Bool.false_eq_true, if_false, hext,
      EnhancedOutcome.extraction_method]

/-- Witness for C7: at the concrete plain page with an always-failing fetch,
no candidate validates and the pipeline reports the HTML-fallback method. -/
theorem extract_openapi_spec_first_valid_witness :
    (detect_swagger_page c1Url c1Html svAllFalse).is_swagger = true ∧
    extract_openapi_spec fetchNone loadsNone
      (detect_swagger_page c1Url c1Html svAllFalse).spec_urls = none ∧
    (enhanced_extract fetchNone loadsNone c1Url c1Html svAllFalse fvEmpty
        none).extraction_method = some "html_scraping" := by
  refine ⟨by decide, rfl, ?_⟩
  exact extract_openapi_spec_first_valid.2 fetchNone loadsNone c1Url c1Html svAllFalse
    fvEmpty none (by decide) rfl

/-! ## C4: `total_endpoints` counts the recognized `(path, method)` pairs -/

theorem Json.asObj_eq_some {j : Json} {items : List (String × Json)}
    (h : j.asObj = some items) : j = .obj items := by
  cases j <;> simp [Json.asObj] at h ⊢
  exact h

theorem optMapM_perPath_lengths :
    ∀ (pathItems : List (String × Json)) (lists : List (List EndpointInfo)),
      optMapM (fun pm : String × Json => do
        let mItems ← pm.2.asObj
        let recognized := mItems.filter
          (fun mi => recognizedHttpMethods.contains (lowerStr mi.1))
        optMapM (fun mi : String × Json => parseEndpointOperation pm.1 mi.1 mi.2)
          recognized) pathItems = some lists →
      lists.map List.length = pathItems.map (fun pm =>
        match pm.2.asObj with
        | some mItems =>
          (mItems.filter (fun mi => recognizedHttpMethods.contains (lowerStr mi.1))).length
        | none => 0) := by
  intro pathItems
  induction pathItems with
  | nil =>
    intro lists h
    simp only [optMapM, Option.some.injEq] at h
    simp [← h]
  | cons pm rest ih =>
    intro lists h
    simp only [optMapM, Option.bind_eq_bind, Option.bind_eq_some, Option.pure_def,
      Option.some.injEq] at h
    obtain ⟨l0, hl0, ls, hls, hlists⟩ := h
    obtain ⟨mItems, hm, hinner⟩ := hl0
    have hlen := optMapM_length _ _ _ hinner
    have := ih ls hls
    simp only [← hlists, List.map_cons, hm, this, hlen]

/-- C4: whenever `parse_openapi_spec` succeeds (the document is well-formed
enough not to raise), the returned `total_endpoints` equals the length of the
emitted endpoint list, and both equal the number of `(path, method)` pairs in
the `paths` object whose method key is in the recognized set
`{get, post, put, delete, patch, options, head}`. -/
theorem parse_openapi_spec_total_endpoints (spec : Json) (d : ApiData)
    (h : parse_openapi_spec spec = some d) :
    d.total_endpoints = d.endpoints.length ∧
    d.total_endpoints = countRecognizedPairs (pathsItemsOf spec) := by
  simp only [parse_openapi_spec, Option.bind_eq_bind, Option.bind_eq_some, Option.pure_def,
    Option.some.injEq] at h
  obtain ⟨specItems, hspec, pathItems, hpaths, endpointLists, hmap, h⟩ := h
  obtain ⟨infoItems, hinfo, host, hhost, basePath, hbp, hd⟩ := h
  have hlens := optMapM_perPath_lengths pathItems endpointLists hmap
  constructor
  · rw [← hd]
  · rw [← hd]
    have hflat : endpointLists.flatten.length = (endpointLists.map List.length).sum :=
      List.length_flatten endpointLists
    have hpathsOf : pathsItemsOf spec = pathItems := by
      rw [pathsItemsOf, Json.asObj_eq_some hspec]
      simp only [Json.lookup]
      rw [hpaths]
      rfl
    simp only [hflat, hlens, hpathsOf, countRecognizedPairs]

/-- Witness for C4: the parser succeeds on the scenario-B document and the

theorem applies there. -/

theorem parse_openapi_spec_total_endpoints_witness :
    ∃ d, parse_openapi_spec c4Spec = some d ∧
      d.total_endpoints = d.endpoints.length ∧
      d.total_endpoints = countRecognizedPairs (pathsItemsOf c4Spec) := by
  have hs : (parse_openapi_spec c4Spec).isSome = true := rfl
  have he : parse_openapi_spec c4Spec = some ((parse_openapi_spec c4Spec).get hs) :=
    (Option.some_get hs).symm
  exact ⟨(parse_openapi_spec c4Spec).get hs, he,
    parse_openapi_spec_total_endpoints c4Spec _ he⟩

/-! ## C9: what the enricher appends, and to which endpoints -/

/-- Counterexample to C9: an endpoint that already has an example receives no
mined response-example records, but it does receive the mined code-block
records — the code-block append carries no emptiness check — so its examples
list grows from 1 to 2 entries, the appended one being a `code_example`
record. -/
theorem enhance_appends_code_examples_to_nonempty :
    ∃ out, enhance_endpoints_with_html_examples [c9Endpoint] (some c9Hx) = some out ∧
      c9Endpoint.examples.length = 1 ∧
      (out.headD c9Endpoint).examples.length = 2 ∧
      (out.headD c9Endpoint).examples.getLast? =
        some (Json.obj [("type", .str "code_example"), ("example", .str "codeblock1")]) := by
  have hs : (enhance_endpoints_with_html_examples [c9Endpoint] (some c9Hx)).isSome = true := rfl
  exact ⟨(enhance_endpoints_with_html_examples [c9Endpoint] (some c9Hx)).get hs,
    (Option.some_get hs).symm, rfl, rfl, rfl⟩

/-- C9 (amended): whenever the enricher runs without raising, each output
endpoint's examples list is the input list, extended by the first 3 mined
response-example records only when the endpoint had no examples at all, and
then by the first 2 mined code-block records whenever any were mined —
unconditionally, also for endpoints that already had examples. -/
theorem enhance_examples_amended (endpoints : List EndpointInfo) (hx : HtmlExamples)
    (out : List EndpointInfo)
    (h : enhance_endpoints_with_html_examples endpoints (some hx) = some out) :
    List.Forall₂ (fun (ein eout : EndpointInfo) =>
      eout.examples =
        (if ein.examples.isEmpty ∧ ¬hx.response_examples.isEmpty then
          ein.examples ++ (hx.response_examples.take 3).map (fun e =>
            Json.obj [("type", .str "html_extracted"), ("example", .str e)])
        else ein.examples) ++
        (if ¬hx.code_examples.isEmpty then
          (hx.code_examples.take 2).map (fun e =>
            Json.obj [("type", .str "code_example"), ("example", .str e)])
        else [])) endpoints out := by
  simp only [enhance_endpoints_with_html_examples] at h
  induction endpoints generalizing out with
  | nil =>
    simp only [optMapM, Option.some.injEq] at h
    rw [← h]
    exact List.Forall₂.nil
  | cons ep rest ih =>
    simp only [optMapM, Option.bind_eq_bind, Option.bind_eq_some, Option.pure_def,
      Option.some.injEq] at h
    obtain ⟨b, hb, bs, hbs, hout⟩ := h
    rw [← hout]
    refine List.Forall₂.cons ?_ (ih bs hbs)
    simp only [enhanceOneEndpoint, Option.bind_eq_bind, Option.bind_eq_some,
      Option.pure_def, Option.some.injEq] at hb
    obtain ⟨params, hparams, hbval⟩ := hb
    rw [← hbval]
    by_cases hcode : hx.code_examples.isEmpty
    · simp [hcode]
    · simp [hcode]

/-- Witness for C9 (amended) at the concrete endpoint and mined examples. -/
theorem enhance_examples_amended_witness :
    ∃ out, enhance_endpoints_with_html_examples [c9Endpoint] (some c9Hx) = some out ∧
      List.Forall₂ (fun (ein eout : EndpointInfo) =>
        eout.examples =
          (if ein.examples.isEmpty ∧ ¬c9Hx.response_examples.isEmpty then
            ein.examples ++ (c9Hx.response_examples.take 3).map (fun e =>
              Json.obj [("type", .str "html_extracted"), ("example", .str e)])
          else ein.examples) ++
          (if ¬c9Hx.code_examples.isEmpty then
            (c9Hx.code_examples.take 2).map (fun e =>
              Json.obj [("type", .str "code_example"), ("example", .str e)])
          else [])) [c9Endpoint] out := by
  have hs : (enhance_endpoints_with_html_examples [c9Endpoint] (some c9Hx)).isSome = true := rfl
  have he : enhance_endpoints_with_html_examples [c9Endpoint] (some c9Hx) =
      some ((enhance_endpoints_with_html_examples [c9Endpoint] (some c9Hx)).get hs) :=
    (Option.some_get hs).symm
  exact ⟨_, he, enhance_examples_amended [c9Endpoint] c9Hx _ he⟩

/-! ## C6: the sliding-window rate limiter can exceed its bound

The schedule below is temporally consistent and uses at most two concurrently
suspended calls (well within the semaphore's 20 permits): one call is
admitted at time 0, nineteen at time 30, and two calls arriving at time 31
find 20 timestamps in the window and sleep until time 60, when the time-0
entry ages out.  On waking, each re-filters and appends **without re-checking
the count** (the source has an `if`, not a `while`), so both are admitted at
time 60 — 19 + 2 = 21 admissions inside the trailing 60-second window ending
at time 60. -/

/-- C6 (code bug exhibited): running the limiter model on the schedule above
is valid (every wake matches a pending sleeper, no sleeper is left pending,
times are non-decreasing) and yields 21 admissions within one trailing
60-second window — exceeding the 20-per-minute bound the code's own comments
promise.  The bound would hold if the post-sleep path re-checked the window
before admitting. -/
theorem rate_limiter_window_violation :
    monotoneTimes (c6Trace.map RLStep.time) = true ∧
    (rlRun c6Trace).map (fun r => r.2) = some [] ∧
    (rlRun c6Trace).map (fun r => admittedInWindow r.1.admitted 60) = some 21 ∧
    20 < 21 := by
  refine ⟨by decide, by decide, by decide, by decide⟩

/-! ## C2: success list and failure map are not disjoint -/

/-- Counterexample to C2: a URL whose Swagger-detection step throws but whose
processing otherwise completes ends the run present in **both** the success
list and the failure map of the same `ProcessingStats` instance (with reason
`swagger_detection_error`), because `add_failure` records the detection error
and nothing ever removes it when the URL later succeeds. -/
theorem stats_success_failure_overlap_counterexample :
    "u" ∈ (runOneUrl c2Env "u" "b" { base_url := "b" }).1.successful_urls ∧
    "u" ∈ dictKeys (runOneUrl c2Env "u" "b" { base_url := "b" }).1.failed_urls ∧
    ((runOneUrl c2Env "u" "b" { base_url := "b" }).1.failed_urls.lookup "u").map
      (fun rec => rec.reason) = some .swagger_detection_error := by
  refine ⟨by decide, by decide, by decide⟩

theorem dictKeys_pyDictSet {β : Type} (items : List (String × β)) (k : String) (v : β) :
    ∀ u, u ∈ dictKeys (pyDictSet items k v) → u ∈ dictKeys items ∨ u = k := by
  intro u hu
  unfold pyDictSet at hu
  split at hu
  · simp only [dictKeys, List.map_map, List.mem_map, Function.comp] at hu
    obtain ⟨it, hit, heq⟩ := hu
    by_cases hk : it.1 = k
    · right
      rw [← heq]
      simp [hk]
    · left
      simp only [dictKeys, List.mem_map]
      refine ⟨it, hit, ?_⟩
      rw [← heq]
      simp [hk]
  · simp only [dictKeys, List.map_append, List.mem_append] at hu
    rcases hu with h | h
    · left; exact h
    · right; simpa using h

theorem mem_dictKeys_pyDictSet_self {β : Type} (items : List (String × β))
    (k : String) (v : β) : k ∈ dictKeys (pyDictSet items k v) := by
  unfold pyDictSet
  split
  · rename_i hany
    simp only [List.any_eq_true, decide_eq_true_eq] at hany
    obtain ⟨it, hit, hk⟩ := hany
    simp only [dictKeys, List.map_map, List.mem_map, Function.comp]
    exact ⟨it, hit, by simp [hk]⟩
  · simp [dictKeys]

/-- The statistics facts `pusGo` guarantees when the Swagger step never
throws: the success list is untouched, failure keys grow only by the
processed URL, and a successful return leaves the failure map unchanged. -/
theorem pusGo_stats_no_throw (env : UrlEnv) (url base_url : String)
    (hsw : ∀ k m, env.swagger k ≠ .thrown m) :
    ∀ (fuel k : ℕ) (s : ProcessingStats) (c : RunCounts),
      (pusGo env url base_url fuel k s c).2.1.successful_urls = s.successful_urls ∧
      (∀ u, u ∈ dictKeys (pusGo env url base_url fuel k s c).2.1.failed_urls →
        u ∈ dictKeys s.failed_urls ∨ u = url) ∧
      ((pusGo env url base_url fuel k s c).1.isSome →
        (pusGo env url base_url fuel k s c).2.1.failed_urls = s.failed_urls) := by
  intro fuel
  induction fuel with
  | zero =>
    intro k s c
    exact ⟨rfl, fun u h => Or.inl h, fun _ => rfl⟩
  | succ fuel ih =>
    intro k s c
    simp only [pusGo]
    cases hfk : env.fetch k with
    | ok content =>
      dsimp only
      by_cases hc : content = ""
      · rw [if_pos hc]
        by_cases hk : k < 2
        · rw [if_pos hk]
          exact ih (k + 1) s _
        · rw [if_neg hk]
          exact ⟨rfl, fun u h => dictKeys_pyDictSet _ _ _ u h, by simp⟩
      · rw [if_neg hc]
        cases hs2 : env.swagger k with
        | thrown m => exact absurd hs2 (hsw k m)
        | res isw succ conf em cnt =>
          dsimp only
          have hstable :
              ((if (isw && succ) = true then s.add_swagger_detection url em cnt else s).successful_urls
                  = s.successful_urls) ∧ 
              ((if (isw && succ) = true then s.add_swagger_detection url em cnt else s).failed_urls
                  = s.failed_urls) := by
            split <;> exact ⟨rfl, rfl⟩
          generalize hgen :
            (if (isw && succ) = true then s.add_swagger_detection url em cnt else s) = s2
            at hstable ⊢
          cases hbr : (process_with_bedrock (env.bedrock k)).1 with
          | some pc =>
            dsimp only
            by_cases hpc : pc = ""
            · rw [if_pos hpc]
              by_cases hk : k < 2
              · rw [if_pos hk]
                obtain ⟨h1, h2, h3⟩ := ih (k + 1) s2
                  { jina := c.jina + 1,
                    bedrock := c.bedrock + (process_with_bedrock (env.bedrock k)).2 }
                exact ⟨by rw [h1, hstable.1],
                  fun u hu => by
                    rcases h2 u hu with h | h
                    · rw [hstable.2] at h; exact Or.inl h
                    · exact Or.inr h,
                  fun hsome => by rw [h3 hsome, hstable.2]⟩
              · rw [if_neg hk]
                refine ⟨by simp [ProcessingStats.add_failure, hstable.1], ?_, by simp⟩
                intro u hu
                simp only [ProcessingStats.add_failure] at hu
                rcases dictKeys_pyDictSet _ _ _ u hu with h | h
                · rw [hstable.2] at h; exact Or.inl h
                · exact Or.inr h
            · rw [if_neg hpc]
              exact ⟨hstable.1, fun u hu => Or.inl (by rwa [hstable.2] at hu),
                fun _ => hstable.2⟩
          | none =>
            dsimp only
            by_cases hk : k < 2
            · rw [if_pos hk]
              obtain ⟨h1, h2, h3⟩ := ih (k + 1) s2
                { jina := c.jina + 1,
                  bedrock := c.bedrock + (process_with_bedrock (env.bedrock k)).2 }
              exact ⟨by rw [h1, hstable.1],
                fun u hu => by
                  rcases h2 u hu with h | h
                  · rw [hstable.2] at h; exact Or.inl h
                  · exact Or.inr h,
                fun hsome => by rw [h3 hsome, hstable.2]⟩
            · rw [if_neg hk]
              refine ⟨by simp [ProcessingStats.add_failure, hstable.1], ?_, by simp⟩
              intro u hu
              simp only [ProcessingStats.add_failure] at hu
              rcases dictKeys_pyDictSet _ _ _ u hu with h | h
              · rw [hstable.2] at h; exact Or.inl h
              · exact Or.inr h
    | timeoutErr m =>
      dsimp only [fetchFailureReason]
      by_cases hk : k < 2
      · rw [if_pos hk]; exact ih (k + 1) s _
      · rw [if_neg hk]
        exact ⟨rfl, fun u h => dictKeys_pyDictSet _ _ _ u h, by simp⟩
    | clientErr m =>
      dsimp only [fetchFailureReason]
      by_cases hk : k < 2
      · rw [if_pos hk]; exact ih (k + 1) s _
      · rw [if_neg hk]
        exact ⟨rfl, fun u h => dictKeys_pyDictSet _ _ _ u h, by simp⟩
    | respErr m =>
      dsimp only [fetchFailureReason]
      by_cases hk : k < 2
      · rw [if_pos hk]; exact ih (k + 1) s _
      · rw [if_neg hk]
        exact ⟨rfl, fun u h => dictKeys_pyDictSet _ _ _ u h, by simp⟩
    | otherErr m =>
      dsimp only [fetchFailureReason]
      by_cases hk : k < 2
      · rw [if_pos hk]; exact ih (k + 1) s _
      · rw [if_neg hk]
        exact ⟨rfl, fun u h => dictKeys_pyDictSet _ _ _ u h, by simp⟩

/-- C2 (amended): the success list and the failure-map key set are disjoint
only for runs in which no Swagger-detection error is recorded for the
processed URL: starting from disjoint statistics not yet containing the URL,
a run whose Swagger step never throws preserves disjointness — while a URL
whose Swagger-detection step throws but whose processing completes is present
in both (the counterexample). -/
theorem stats_disjoint_amended (env : UrlEnv) (url base_url : String)
    (s₀ : ProcessingStats)
    (hsw : ∀ k m, env.swagger k ≠ .thrown m)
    (hdisj : ∀ u, u ∈ s₀.successful_urls → u ∉ dictKeys s₀.failed_urls)
    (hu1 : url ∉ s₀.successful_urls) (hu2 : url ∉ dictKeys s₀.failed_urls) :
    ∀ u, u ∈ (runOneUrl env url base_url s₀).1.successful_urls →
      u ∉ dictKeys (runOneUrl env url base_url s₀).1.failed_urls := by
  obtain ⟨h1, h2, h3⟩ := pusGo_stats_no_throw env url base_url hsw 3 0 s₀ {}
  intro u hu
  unfold runOneUrl process_single_url at hu ⊢
  cases hres : (pusGo env url base_url 3 0 s₀ {}).1 with
  | some res =>
    simp only [hres] at hu ⊢
    have hfail := h3 (by rw [hres]; rfl)
    simp only [ProcessingStats.add_success, h1] at hu ⊢
    rw [if_neg hu1] at hu ⊢
    simp only [hfail]
    simp only [List.mem_append, List.mem_singleton] at hu
    cases hu with
    | inl h => exact hdisj u h
    | inr h => rw [h]; exact hu2
  | none =>
    simp only [hres] at hu ⊢
    simp only [ProcessingStats.add_failure, h1] at hu ⊢
    intro hbad
    rcases dictKeys_pyDictSet _ _ _ u hbad with h | h
    · rcases h2 u h with h' | h'
      · exact hdisj u hu h'
      · rw [h'] at hu; exact hu1 hu
    · rw [h] at hu; exact hu1 hu

/-- Witness for C2 (amended): a run with a non-throwing Swagger step from
fresh statistics keeps the two sets disjoint. -/
theorem stats_disjoint_amended_witness :
    "u" ∈ (runOneUrl c2BenignEnv "u" "b" { base_url := "b" }).1.successful_urls ∧
    "u" ∉ dictKeys (runOneUrl c2BenignEnv "u" "b" { base_url := "b" }).1.failed_urls := by
  constructor
  · decide
  · exact stats_disjoint_amended c2BenignEnv "u" "b" { base_url := "b" }
      (fun _ _ => by simp [c2BenignEnv]) (fun u h => by simp at h) (by simp)
      (by simp [dictKeys]) "u" (by decide)

/-! ## C3: retry budgets of the two mandatory stages -/

theorem bedrockAttempts_all_err (oracle : ℕ → BedrockOutcome)
    (h : ∀ i, ∃ m, oracle i = .err m) :
    ∀ (fuel i : ℕ), bedrockAttempts oracle i fuel = (none, fuel) := by
  intro fuel
  induction fuel with
  | zero => intro i; rfl
  | succ fuel ih =>
    intro i
    obtain ⟨m, hm⟩ := h i
    simp only [bedrockAttempts, hm, ih (i + 1)]

/-- An always-raising fetch runs the underlying Jina call exactly once per
outer attempt: with `k + fuel = 3` and at least one attempt left, the loop
performs `fuel` further calls, returns `None`, and records the URL failed. -/
theorem pusGo_fetch_always_err (env : UrlEnv) (url base_url : String)
    (h : ∀ k, ∃ r, fetchFailureReason (env.fetch k) = some r) :
    ∀ (fuel k : ℕ) (s : ProcessingStats) (c : RunCounts), k + fuel = 3 → 1 ≤ fuel →
      (pusGo env url base_url fuel k s c).1 = none ∧
      (pusGo env url base_url fuel k s c).2.2.jina = c.jina + fuel ∧
      url ∈ dictKeys (pusGo env url base_url fuel k s c).2.1.failed_urls := by
  intro fuel
  induction fuel with
  | zero => intro k s c _ hf; omega
  | succ fuel ih =>
    intro k s c hsum _
    simp only [pusGo]
    obtain ⟨r, hr⟩ := h k
    cases hfk : env.fetch k with
    | ok content =>
      rw [hfk] at hr
      simp [fetchFailureReason] at hr
    | timeoutErr m =>
      dsimp only [fetchFailureReason]
      by_cases hk : k < 2
      · rw [if_pos hk]
        obtain ⟨h1, h2, h3⟩ := ih (k + 1) s
          { jina := c.jina + 1, bedrock := c.bedrock } (by omega) (by omega)
        refine ⟨h1, ?_, h3⟩
        simp only [h2]
        omega
      · rw [if_neg hk]
        have hf0 : fuel = 0 := by omega
        exact ⟨rfl, by simp [hf0], mem_dictKeys_pyDictSet_self _ _ _⟩
    | clientErr m =>
      dsimp only [fetchFailureReason]
      by_cases hk : k < 2
      · rw [if_pos hk]
        obtain ⟨h1, h2, h3⟩ := ih (k + 1) s
          { jina := c.jina + 1, bedrock := c.bedrock } (by omega) (by omega)
        refine ⟨h1, ?_, h3⟩
        simp only [h2]
        omega
      · rw [if_neg hk]
        have hf0 : fuel = 0 := by omega
        exact ⟨rfl, by simp [hf0], mem_dictKeys_pyDictSet_self _ _ _⟩
    | respErr m =>
      dsimp only [fetchFailureReason]
      by_cases hk : k < 2
      · rw [if_pos hk]
        obtain ⟨h1, h2, h3⟩ := ih (k + 1) s
          { jina := c.jina + 1, bedrock := c.bedrock } (by omega) (by omega)
        refine ⟨h1, ?_, h3⟩
        simp only [h2]
        omega
      · rw [if_neg hk]
        have hf0 : fuel = 0 := by omega
        exact ⟨rfl, by simp [hf0], mem_dictKeys_pyDictSet_self _ _ _⟩
    | otherErr m =>
      dsimp only [fetchFailureReason]
      by_cases hk : k < 2
      · rw [if_pos hk]
        obtain ⟨h1, h2, h3⟩ := ih (k + 1) s
          { jina := c.jina + 1, bedrock := c.bedrock } (by omega) (by omega)
        refine ⟨h1, ?_, h3⟩
        simp only [h2]
        omega
      · rw [if_neg hk]
        have hf0 : fuel = 0 := by omega
        exact ⟨rfl, by simp [hf0], mem_dictKeys_pyDictSet_self _ _ _⟩

/-- A transformation failing on every attempt performs 3 underlying Bedrock
invocations per remaining outer attempt (and one Jina call each), ending with
the URL recorded failed. -/
theorem pusGo_bedrock_always_err (env : UrlEnv) (url base_url : String)
    (hfetch : ∀ k, ∃ content, env.fetch k = .ok content ∧ content ≠ "")
    (hbr : ∀ k i, ∃ m, env.bedrock k i = .err m) :
    ∀ (fuel k : ℕ) (s : ProcessingStats) (c : RunCounts), k + fuel = 3 → 1 ≤ fuel →
      (pusGo env url base_url fuel k s c).1 = none ∧
      (pusGo env url base_url fuel k s c).2.2.jina = c.jina + fuel ∧
      (pusGo env url base_url fuel k s c).2.2.bedrock = c.bedrock + 3 * fuel ∧
      url ∈ dictKeys (pusGo env url base_url fuel k s c).2.1.failed_urls := by
  intro fuel
  induction fuel with
  | zero => intro k s c _ hf; omega
  | succ fuel ih =>
    intro k s c hsum _
    simp only [pusGo]
    obtain ⟨content, hc, hne⟩ := hfetch k
    rw [hc]
    dsimp only
    rw [if_neg hne]
    have hpb : process_with_bedrock (env.bedrock k) = (none, 3) := by
      unfold process_with_bedrock
      exact bedrockAttempts_all_err _ (hbr k) 3 0
    rw [hpb]
    dsimp only
    cases hs2 : env.swagger k with
    | thrown m =>
      dsimp only
      by_cases hk : k < 2
      · rw [if_pos hk]
        obtain ⟨h1, h2, h3, h4⟩ := ih (k + 1)
          (s.add_failure url .swagger_detection_error ("Swagger detection failed: " ++ m))
          { jina := c.jina + 1, bedrock := c.bedrock + 3 } (by omega) (by omega)
        refine ⟨h1, ?_, ?_, h4⟩
        · simp only [h2]; omega
        · simp only [h3]; omega
      · rw [if_neg hk]
        have hf0 : fuel = 0 := by omega
        exact ⟨rfl, by simp [hf0], by simp [hf0], mem_dictKeys_pyDictSet_self _ _ _⟩
    | res isw succ conf em cnt =>
      dsimp only
      generalize hgen :
        (if (isw && succ) = true then s.add_swagger_detection url em cnt else s) = s2
      by_cases hk : k < 2
      · rw [if_pos hk]
        obtain ⟨h1, h2, h3, h4⟩ := ih (k + 1) s2
          { jina := c.jina + 1, bedrock := c.bedrock + 3 } (by omega) (by omega)
        refine ⟨h1, ?_, ?_, h4⟩
        · simp only [h2]; omega
        · simp only [h3]; omega
      · rw [if_neg hk]
        have hf0 : fuel = 0 := by omega
        exact ⟨rfl, by simp [hf0], by simp [hf0], mem_dictKeys_pyDictSet_self _ _ _⟩

/-- Counterexample to C3: when the transformation stage fails on every
attempt, the underlying Bedrock invocation runs 9 times — 3 inner attempts of
`process_with_bedrock` per outer pipeline attempt, times 3 outer attempts —
not the claimed `max_retries + 1 = 3`; the Jina fetch also reruns on each
outer attempt. -/
theorem transform_underlying_calls_counterexample :
    (process_single_url c3Env "u" "b" { base_url := "b" }).2.2.bedrock = 9 ∧
    (process_single_url c3Env "u" "b" { base_url := "b" }).2.2.jina = 3 ∧
    ¬(process_single_url c3Env "u" "b" { base_url := "b" }).2.2.bedrock = 3 := by
  refine ⟨by decide, by decide, by decide⟩

/-- C3 (amended): a content-fetch stage that fails on every attempt performs
exactly `max_retries + 1 = 3` underlying Jina calls, after which the URL is
recorded as failed; the transformation stage, however, performs 3 underlying
Bedrock invocations per outer attempt while the outer loop retries the whole
pipeline (re-fetching content) up to 3 times, so a transformation failing on
every attempt performs 9 underlying invocations (and 3 fetch calls) before
the URL is recorded as failed. -/
theorem retry_budget_amended :
    (∀ (env : UrlEnv) (url base_url : String) (s : ProcessingStats),
      (∀ k, ∃ r, fetchFailureReason (env.fetch k) = some r) →
      (process_single_url env url base_url s).2.2.jina = 3 ∧
      (process_single_url env url base_url s).1 = none ∧
      url ∈ dictKeys (process_single_url env url base_url s).2.1.failed_urls) ∧
    (∀ (env : UrlEnv) (url base_url : String) (s : ProcessingStats),
      (∀ k, ∃ content, env.fetch k = .ok content ∧ content ≠ "") →
      (∀ k i, ∃ m, env.bedrock k i = .err m) →
      (process_single_url env url base_url s).2.2.bedrock = 9 ∧
      (process_single_url env url base_url s).2.2.jina = 3 ∧
      (process_single_url env url base_url s).1 = none ∧
      url ∈ dictKeys (process_single_url env url base_url s).2.1.failed_urls) := by
  constructor
  · intro env url base_url s h
    obtain ⟨h1, h2, h3⟩ := pusGo_fetch_always_err env url base_url h 3 0 s {}
      (by omega) (by omega)
    exact ⟨h2, h1, h3⟩
  · intro env url base_url s hfetch hbr
    obtain ⟨h1, h2, h3, h4⟩ := pusGo_bedrock_always_err env url base_url hfetch hbr 3 0 s {}
      (by omega) (by omega)
    exact ⟨h3, h2, h1, h4⟩

/-- Witness for C3 (amended): both hypothesis sets are satisfiable and the

theorem applies to each. -/

theorem retry_budget_amended_witness :
    ((process_single_url c3TimeoutEnv "u" "b" { base_url := "b" }).2.2.jina = 3 ∧
      (process_single_url c3TimeoutEnv "u" "b" { base_url := "b" }).1 = none ∧
      "u" ∈ dictKeys (process_single_url c3TimeoutEnv "u" "b" { base_url := "b" }).2.1.failed_urls) ∧
    ((process_single_url c3Env "u" "b" { base_url := "b" }).2.2.bedrock = 9 ∧
      (process_single_url c3Env "u" "b" { base_url := "b" }).2.2.jina = 3 ∧
      (process_single_url c3Env "u" "b" { base_url := "b" }).1 = none ∧
      "u" ∈ dictKeys (process_single_url c3Env "u" "b" { base_url := "b" }).2.1.failed_urls) := by
  constructor
  · exact retry_budget_amended.1 c3TimeoutEnv "u" "b" { base_url := "b" }
      (fun k => ⟨.timeout_error, rfl⟩)
  · exact retry_budget_amended.2 c3Env "u" "b" { base_url := "b" }
      (fun k => ⟨"page content", rfl, by decide⟩)
      (fun k i => ⟨"throttling detected", rfl⟩)
end UrlScraperModel
